import Mathlib

/-!
# Verification of the quote normalization, scoring and ranking pipeline

Shallow embedding of the core of `RND332/randon-router`: the later revision
`src/unnamed/part_001` (a TypeScript module exporting `getQuoteComparison`),
together with `toGasPriceTokenIn` from the earlier revision
`src/src/data/quote-compare.ts` where the two revisions differ.

Modelling conventions:
* JavaScript numbers and `bignumber.js` values are modelled as exact
  rationals (`ℚ`); IEEE-754 double rounding at the output boundary is not
  modelled.  A value that is NaN (for example `new BigNumber(s)` for a
  non-numeric string `s`, or `Number(s)` for such a string) is modelled as
  `none` in the type `BNum := Option ℚ`.  JSON numbers are always finite,
  so fields that the source reads as JSON numbers are plain `ℚ`.
* `bignumber.js` is used with its default configuration:
  `DECIMAL_PLACES = 20`, `ROUNDING_MODE = ROUND_HALF_UP` (half away from
  zero).  Division and square roots therefore round to 20 decimal places;
  addition, subtraction, multiplication and integer powers are exact.
  `toFixed(n)` and `decimalPlaces(n, ROUND_HALF_UP)` round half away from
  zero at `n` decimal places.
* Numeric strings are modelled by their parsed value; `String(x)` round
  trips are identities.  `Number(null) = 0` and NaN propagation follow the
  JavaScript semantics at each use site.
* Promises are modelled by their settled outcomes (`Option`/`Except`
  values); the `Promise.race` timeout of `getQuoteComparison` is modelled
  by a boolean saying whether the timer fired first.
-/

/-- `ROUND_HALF_UP` rounding of a rational to `dp` decimal places: round to
the nearest multiple of `10^(-dp)`, ties away from zero.  This is the
rounding applied by `bignumber.js` in `toFixed`, `decimalPlaces`,
`dividedBy` (at 20 places) and `sqrt` (at 20 places), and the idealised
rounding of JavaScript's `Number.prototype.toFixed`. -/
def bnRound (dp : ℕ) (x : ℚ) : ℚ :=
  if 0 ≤ x then (⌊x * 10 ^ dp + 1/2⌋ : ℚ) / 10 ^ dp
  else -((⌊(-x) * 10 ^ dp + 1/2⌋ : ℚ) / 10 ^ dp)

/-- A `bignumber.js` value (or a JavaScript number produced from one):
either a finite rational or NaN (`none`).  Infinities cannot arise on the
paths modelled here (divisions by zero are guarded in the source), so
`none` stands for every non-finite value. -/
abbrev BNum : Type := Option ℚ

/-- `plus`: exact, NaN-propagating. -/
def bnAdd (a b : BNum) : BNum :=
  match a, b with
  | some x, some y => some (x + y)
  | _, _ => none

/-- `minus`: exact, NaN-propagating. -/
def bnSub (a b : BNum) : BNum :=
  match a, b with
  | some x, some y => some (x - y)
  | _, _ => none

/-- `multipliedBy`: exact, NaN-propagating. -/
def bnMul (a b : BNum) : BNum :=
  match a, b with
  | some x, some y => some (x * y)
  | _, _ => none

/-- `dividedBy`: rounds the exact quotient to `DECIMAL_PLACES = 20`
decimal places with `ROUND_HALF_UP`; NaN-propagating; a zero divisor
yields a non-finite result (`none`). -/
def bnDiv (a b : BNum) : BNum :=
  match a, b with
  | some x, some y => if y = 0 then none else some (bnRound 20 (x / y))
  | _, _ => none

/-- `BigNumber.minimum`, NaN-propagating. -/
def bnMin (a b : BNum) : BNum :=
  match a, b with
  | some x, some y => some (min x y)
  | _, _ => none

/-- `BigNumber.maximum`, NaN-propagating. -/
def bnMax (a b : BNum) : BNum :=
  match a, b with
  | some x, some y => some (max x y)
  | _, _ => none

/-- `Math.max` on two JavaScript numbers (NaN-propagating). -/
def jsMax (a b : BNum) : BNum := bnMax a b

/-- Truthiness of a JavaScript number: `0` and NaN are falsy. -/
def bnTruthy (x : BNum) : Bool :=
  match x with
  | some q => decide (q ≠ 0)
  | none => false

/-- Newton iteration for integer square roots, driven by explicit fuel so
that the kernel can evaluate it on literals. -/
def isqrtIter : ℕ → ℕ → ℕ → ℕ
  | 0, _, guess => guess
  | fuel+1, n, guess =>
      let next := (guess + n / guess) / 2
      if next < guess then isqrtIter fuel n next else guess

/-- Integer square root (`⌊√n⌋`). -/
def isqrt (n : ℕ) : ℕ := if n ≤ 1 then n else isqrtIter n n (n / 2)

/-- `⌊√q⌋` in units of `10^(-20)`, for `0 ≤ q`. -/
def sqrtUnits (q : ℚ) : ℕ := isqrt (⌊q * 10 ^ 40⌋).toNat

/-- `bignumber.js` `sqrt()`: the square root rounded to
`DECIMAL_PLACES = 20` decimal places with `ROUND_HALF_UP`.  The guard
`q < 0` (where `bignumber.js` returns NaN) is unreachable on the modelled
paths, which only take square roots of sums of squares; the value `0` there
is arbitrary. -/
def ratSqrt20 (q : ℚ) : ℚ :=
  if q < 0 then 0
  else if ((2 * sqrtUnits q + 1 : ℕ) : ℚ) ^ 2 ≤ 4 * (q * 10 ^ 40)
    then ((sqrtUnits q + 1 : ℕ) : ℚ) / 10 ^ 20
    else ((sqrtUnits q : ℕ) : ℚ) / 10 ^ 20

/-- `sqrt()` lifted to `BNum`. -/
def bnSqrt (a : BNum) : BNum :=
  match a with
  | some q => if q < 0 then none else some (ratSqrt20 q)
  | none => none

/-- `Math.max(...list)` over a non-empty list of JavaScript numbers
(NaN-propagating); the source only applies it to non-empty lists, so the
empty case (JavaScript would give `-Infinity`) is mapped to `none`. -/
def jsMaxList (l : List BNum) : BNum :=
  match l with
  | [] => none
  | x :: xs => xs.foldl jsMax x

/-- `Math.max(...list)` over a non-empty list of finite numbers; the `0`
for `[]` is unreachable (the source guards non-emptiness). -/
def listMax (l : List ℚ) : ℚ :=
  match l with
  | [] => 0
  | x :: xs => xs.foldl max x

/-- `Math.min(...list)` over a non-empty list of finite numbers; the `0`
for `[]` is unreachable. -/
def listMin (l : List ℚ) : ℚ :=
  match l with
  | [] => 0
  | x :: xs => xs.foldl min x

-- Basic facts about the rounding function.

theorem bnRound_nonneg (dp : ℕ) {x : ℚ} (hx : 0 ≤ x) : 0 ≤ bnRound dp x := by
  rw [bnRound, if_pos hx]
  have h : (0 : ℤ) ≤ ⌊x * 10 ^ dp + 1/2⌋ := by
    rw [Int.le_floor]
    push_cast
    positivity
  positivity

theorem bnRound_le_one (dp : ℕ) {x : ℚ} (hx : x ≤ 1) : bnRound dp x ≤ 1 := by
  rw [bnRound]
  split
  · have h : ⌊x * 10 ^ dp + 1/2⌋ < 10 ^ dp + 1 := by
      rw [Int.floor_lt]
      push_cast
      nlinarith [show (0:ℚ) < 10 ^ dp by positivity]
    have h' : ⌊x * 10 ^ dp + 1/2⌋ ≤ 10 ^ dp := by omega
    rw [div_le_one (by positivity)]
    exact_mod_cast h'
  · have h : (0 : ℚ) ≤ (⌊(-x) * 10 ^ dp + 1/2⌋ : ℚ) / 10 ^ dp := by
      have h0 : 0 ≤ -x := by linarith [lt_of_not_ge (by assumption : ¬ 0 ≤ x)]
      have : (0 : ℤ) ≤ ⌊(-x) * 10 ^ dp + 1/2⌋ := by
        rw [Int.le_floor]; push_cast; positivity
      positivity
    linarith

theorem bnRound_zero (dp : ℕ) : bnRound dp 0 = 0 := by
  rw [bnRound, if_pos le_rfl]
  norm_num

/-- Rounding is the identity on rationals that already have at most `dp`
decimal places. -/
theorem bnRound_eq_self (dp : ℕ) {x : ℚ} {k : ℤ} (hk : x * 10 ^ dp = (k : ℚ)) :
    bnRound dp x = x := by
  have hden : (0 : ℚ) < 10 ^ dp := by positivity
  have hx : x = (k : ℚ) / 10 ^ dp := by
    field_simp
    linarith [hk]
  rw [bnRound]
  split
  · rw [hk]
    have : ⌊(k : ℚ) + 1/2⌋ = k := by
      rw [show ((k : ℚ) + 1/2) = (k : ℚ) + (1/2 : ℚ) by ring, Int.floor_int_add]
      norm_num
    rw [this, hx]
  · have hneg : (-x) * 10 ^ dp = ((-k : ℤ) : ℚ) := by push_cast; linarith [hk]
    rw [hneg]
    have : ⌊((-k : ℤ) : ℚ) + 1/2⌋ = -k := by
      rw [Int.floor_int_add]
      norm_num
    rw [this, hx]
    push_cast
    ring

/-! ## Data model (`src/unnamed/part_001`) -/

/-- A prepared transaction (`type Calldata`).  The source field `to` is a
Lean keyword and is rendered `toAddress`. -/
structure Calldata where
  toAddress : String
  data : String
deriving DecidableEq, Repr

/-- `type SimulationResult`.  `outputTokenAmount` is a string in the
source and is modelled by its parsed value (`none` when non-numeric);
`approveTxGasUsed` and `swapTxGasUsed` are JSON numbers, hence finite. -/
structure SimulationResult where
  balanceOfBefore : String
  balanceOfAfter : String
  outputTokenAmount : BNum
  outputToken : String
  approveTxGasUsed : ℚ
  swapTxGasUsed : ℚ
  isSuccessful : Bool
  simBlockNumber : String
  simTime : String
  simTimeTotal : String
  requestId : String
deriving DecidableEq, Repr

/-- `type RawQuote`.  `amountOut` is `string | null`: `none` models
`null`, `some none` a non-numeric string, `some (some q)` a numeric
string of value `q`.  `gasUsed` is `number | null`.  `rawResponse` is an
opaque passthrough payload, modelled as an optional string. -/
structure RawQuote where
  aggregator : String
  amountOut : Option BNum
  gasUsed : Option ℚ
  sources : Option (List String)
  rawResponse : Option String
  calldataResponse : Option Calldata
  simulationResult : Option SimulationResult
  failed : Option Bool
deriving DecidableEq, Repr

/-- `type QuoteRow`: a `RawQuote` plus the three derived fields.  In every
row produced by `calculateScores` the `failed` flag has been assigned, so
it is a plain `Bool` here; `netOutput` is a JavaScript number that can be
NaN (`none`); `distance` is always finite (the source guards it with
`Number.isFinite`); `score` is finite or `+Infinity` (`⊤`). -/
structure QuoteRow where
  aggregator : String
  amountOut : Option BNum
  gasUsed : Option ℚ
  sources : Option (List String)
  rawResponse : Option String
  calldataResponse : Option Calldata
  simulationResult : Option SimulationResult
  failed : Bool
  netOutput : BNum
  distance : ℚ
  score : WithTop ℚ
deriving DecidableEq, Repr

/-- `type Token`. -/
structure Token where
  symbol : String
  name : String
  address : String
  decimals : ℕ
  priceUsd : ℚ
deriving DecidableEq, Repr

/-- `type OrderBy = "score" | "net" | "output"`. -/
inductive OrderBy where
  | score
  | net
  | output
deriving DecidableEq, Repr

/-! ## The scoring engine: `calculateScores` (`src/unnamed/part_001`,
lines 649-797), split into its stages. -/

/-- The filter of line 658-660: rows whose `simulationResult` is present
(so `outputTokenAmount !== undefined`) with nonzero total gas
`swapTxGasUsed + approveTxGasUsed`.  Note it does not consult
`isSuccessful`. -/
def simUsable (item : RawQuote) : Bool :=
  match item.simulationResult with
  | none => false
  | some s => decide (s.swapTxGasUsed + s.approveTxGasUsed ≠ 0)

/-- The all-failed branch (lines 662-670): every row keeps its fields but
gets `netOutput = 0`, `distance = 0`, `score = +Infinity`, `failed =
true`. -/
def allFailedRow (item : RawQuote) : QuoteRow :=
  { aggregator := item.aggregator
    amountOut := item.amountOut
    gasUsed := item.gasUsed
    sources := item.sources
    rawResponse := item.rawResponse
    calldataResponse := item.calldataResponse
    simulationResult := item.simulationResult
    failed := true
    netOutput := some 0
    distance := 0
    score := ⊤ }

/-- One step of the `withNet` map (lines 674-694).  `amountIn` is
`Number(amountIn)` for the request's base-unit amount string and `g` is
the gas-price value handed to the engine. -/
def netRow (amountIn g : BNum) (item : RawQuote) : QuoteRow :=
  let isFailed : Bool := item.amountOut.isNone || item.gasUsed.isNone
  let amountOutBN : BNum :=
    match item.amountOut with
    | none => some 0
    | some v => v
  let gasUsedBN : BNum :=
    match item.gasUsed with
    | none => some 0
    | some v => some v
  let gasCost := bnMul gasUsedBN g
  let netBN :=
    if bnTruthy amountIn then
      bnSub amountOutBN (bnDiv (bnMul gasCost amountOutBN) amountIn)
    else amountOutBN
  { aggregator := item.aggregator
    amountOut := item.amountOut
    gasUsed := item.gasUsed
    sources := item.sources
    rawResponse := item.rawResponse
    calldataResponse := item.calldataResponse
    simulationResult := item.simulationResult
    failed := item.failed.getD isFailed
    netOutput := netBN.map (bnRound 18)
    distance := 0
    score := ((0 : ℚ) : WithTop ℚ) }

/-- One step of the `withDistance` map (lines 698-715), given
`netOutputMax` (line 696). -/
def distRow (netOutputMax : BNum) (item : QuoteRow) : QuoteRow :=
  if item.failed then { item with distance := 0 }
  else
    match netOutputMax with
    | none => { item with distance := 0 }
    | some m =>
        if 0 < m then
          match item.netOutput with
          | none => { item with distance := 0 }
          | some n => { item with distance := bnRound 8 ((m - n) / m * 100) }
        else { item with distance := 0 }

/-- The filter of lines 717-723: simulation present, `isSuccessful`, and
`Number(outputTokenAmount)` finite. -/
def simScoreable (item : QuoteRow) : Bool :=
  match item.simulationResult with
  | none => false
  | some s => s.isSuccessful && s.outputTokenAmount.isSome

/-- `Number(item.simulationResult?.outputTokenAmount ?? 0)` (line 733),
used only on rows passing `simScoreable`, where the defaults are
unreachable. -/
def simOutVal (item : QuoteRow) : ℚ :=
  match item.simulationResult with
  | none => 0
  | some s => s.outputTokenAmount.getD 0

/-- `approveTxGasUsed + swapTxGasUsed` (lines 735-738). -/
def simGasVal (item : QuoteRow) : ℚ :=
  match item.simulationResult with
  | none => 0
  | some s => s.approveTxGasUsed + s.swapTxGasUsed

/-- The score of one successfully simulated row (lines 768-795): its
output and total gas normalised against the min/max statistics (output
anchored at the maximum, "1 if everything ties"; gas anchored at the
minimum, "0 if everything ties"), the Euclidean distance of
`(outputNorm, gasNorm)` to the ideal corner `(1, 0)`, divided by `√2`,
clamped to `[0, 1]` and rounded to 6 decimal places — all in
`bignumber.js` arithmetic (square roots and the division rounded to 20
decimal places; `√2 ≠ 0`, so `dividedBy` takes its finite branch). -/
def euclidScore (oMax oMin gMax gMin ov gv : ℚ) : ℚ :=
  let outputNorm : ℚ :=
    if oMax = oMin then 1 else bnRound 20 ((ov - oMin) / (oMax - oMin))
  let gasNorm : ℚ :=
    if gMax = gMin then 0 else bnRound 20 ((gv - gMin) / (gMax - gMin))
  let euclidean := ratSqrt20 ((outputNorm - 1) ^ 2 + (gasNorm - 0) ^ 2)
  let normalized := bnRound 20 (euclidean / ratSqrt20 2)
  let bounded := max 0 (min 1 normalized)
  bnRound 6 bounded

/-- One step of the final scoring map (lines 747-796), given the min/max
statistics over the successfully simulated rows. -/
def scoreRow (oMax oMin gMax gMin : ℚ) (item : QuoteRow) : QuoteRow :=
  match item.simulationResult with
  | none => { item with score := ⊤ }
  | some s =>
      if s.isSuccessful then
        match s.outputTokenAmount with
        | none => { item with score := ⊤ }
        | some ov =>
            { item with score :=
                ((euclidScore oMax oMin gMax gMin ov
                  (s.approveTxGasUsed + s.swapTxGasUsed) : ℚ) : WithTop ℚ) }
      else { item with score := ⊤ }

/-- The scoring stage applied to the `withDistance` rows: either every
score is `+Infinity` (lines 725-730) or each row is scored against the
min/max statistics of the successfully simulated rows (lines 732-796). -/
def scoreStage (rows : List QuoteRow) : List QuoteRow :=
  let sims := rows.filter simScoreable
  if sims.length = 0 then rows.map (fun item => { item with score := ⊤ })
  else
    let oVals := sims.map simOutVal
    let gVals := sims.map simGasVal
    rows.map (scoreRow (listMax oVals) (listMin oVals) (listMax gVals) (listMin gVals))

/-- `calculateScores` (`src/unnamed/part_001`, lines 649-797). -/
def calculateScores (raw : List RawQuote) (amountIn g : BNum) : List QuoteRow :=
  match raw with
  | [] => []
  | _ =>
      if (raw.filter simUsable).length = 0 then raw.map allFailedRow
      else
        let withNet := raw.map (netRow amountIn g)
        let netOutputMax := jsMaxList (withNet.map QuoteRow.netOutput)
        let withDistance := withNet.map (distRow netOutputMax)
        scoreStage withDistance

/-! ## Fan-out/fan-in coordinator: `settleQuotes` (lines 631-647) -/

/-- The synthetic `RawQuote` built for a rejected task (lines 636-645). -/
def rejectedQuote (label : String) : RawQuote :=
  { aggregator := label
    amountOut := none
    gasUsed := none
    sources := none
    rawResponse := none
    calldataResponse := none
    simulationResult := none
    failed := some true }

/-- `settleQuotes`: a labeled task is modelled by its settled outcome,
`some q` for a fulfilled promise with value `q` and `none` for a rejected
one (`Promise.allSettled` never rejects and preserves order). -/
def settleQuotes (tasks : List (String × Option RawQuote)) : List RawQuote :=
  tasks.map fun t =>
    match t.2 with
    | some v => v
    | none => rejectedQuote t.1

/-- `fallbackQuote` (lines 268-276): the quote an adapter returns itself
when the upstream response is unusable (for example KyberSwap without a
route summary, or 0x without an API key).  Note `failed` is left unset. -/
def fallbackQuote (aggregator : String) : RawQuote :=
  { aggregator := aggregator
    amountOut := some (some 0)
    gasUsed := some 0
    sources := some []
    rawResponse := none
    calldataResponse := none
    simulationResult := none
    failed := none }

/-! ## Unit normalizer: `toGasPriceTokenIn`
(`src/src/data/quote-compare.ts`, lines 217-224; the later revision has no
counterpart and feeds the raw value straight to the scoring engine). -/

/-- `toGasPriceTokenIn`: `Number(rawValue)` NaN check, then
`new BigNumber(rawValue).dividedBy(new BigNumber(2).pow(96))`.  The raw
string is modelled by its parsed value; `dividedBy` rounds to 20 decimal
places (`bignumber.js` default `DECIMAL_PLACES`). -/
def toGasPriceTokenIn (rawValue : BNum) : ℚ :=
  match rawValue with
  | none => 0
  | some q => bnRound 20 (q / 2 ^ 96)

/-! ## Ranker (lines 881-890) -/

/-- Sort key for `order === "net"`: the comparator
`(a, b) => b.netOutput - a.netOutput` on JavaScript numbers.  A NaN
`netOutput` makes the comparator inconsistent (NaN compares equal to
everything); the model resolves that unspecified case by placing NaN
(`⊥`) last. -/
def netKey (r : QuoteRow) : WithBot ℚ :=
  match r.netOutput with
  | some q => (q : WithBot ℚ)
  | none => ⊥

/-- Sort key for `order === "output"`: the comparator
`(a, b) => Number(b.amountOut) - Number(a.amountOut)`.  `Number(null) = 0`;
a non-numeric string gives NaN, again an unspecified comparator case that
the model resolves by placing it (`⊥`) last. -/
def outKey (r : QuoteRow) : WithBot ℚ :=
  match r.amountOut with
  | none => ((0 : ℚ) : WithBot ℚ)
  | some none => ⊥
  | some (some q) => (q : WithBot ℚ)

/-- `ordered.sort((a, b) => a.score - b.score)`: ascending by score, with
`Infinity - Infinity = NaN` treated as a tie, i.e. the linear order of
`WithTop ℚ`. -/
def rankByScore (l : List QuoteRow) : List QuoteRow :=
  l.insertionSort fun a b => a.score ≤ b.score

/-- `ordered.sort((a, b) => b.netOutput - a.netOutput)`: descending by
net output. -/
def rankByNet (l : List QuoteRow) : List QuoteRow :=
  l.insertionSort fun a b => netKey b ≤ netKey a

/-- `ordered.sort((a, b) => Number(b.amountOut) - Number(a.amountOut))`:
descending by numeric amount out. -/
def rankByOutput (l : List QuoteRow) : List QuoteRow :=
  l.insertionSort fun a b => outKey b ≤ outKey a

/-- The three sequential `if` blocks of lines 881-890. -/
def rankResults (order : OrderBy) (scored : List QuoteRow) : List QuoteRow :=
  match order with
  | .score => rankByScore scored
  | .net => rankByNet scored
  | .output => rankByOutput scored

/-! ## Token catalog (lines 77-122 and 258-262) -/

/-- `fallbackTokensBySymbol`, in object-key insertion order
(`Object.values`). -/
def fallbackTokenList : List Token :=
  [ { symbol := "USDT", name := "USDT",
      address := "0xdac17f958d2ee523a2206206994597c13d831ec7",
      decimals := 6, priceUsd := 99/100 },
    { symbol := "ETH", name := "ETH",
      address := "0xeeeeeeeeeeeeeeeeeeeeeeeeeeeeeeeeeeeeeeee",
      decimals := 18, priceUsd := 3321 },
    { symbol := "WETH", name := "WETH",
      address := "0xc02aaa39b223fe8d0a0e5c4f27ead9083c756cc2",
      decimals := 18, priceUsd := 3321 },
    { symbol := "USDC", name := "USDC",
      address := "0xA0b86991c6218b36c1d19D4a2e9Eb0cE3606eB48",
      decimals := 6, priceUsd := 9/10 },
    { symbol := "WBTC", name := "WBTC",
      address := "0x2260FAC5E5542a773Aa44fBCfeDf7C193bc2C599",
      decimals := 8, priceUsd := 86000 },
    { symbol := "cbBTC", name := "cbBTC",
      address := "0xcbB7C0000aB88B473b1f5aFd9ef808440eed33Bf",
      decimals := 8, priceUsd := 86000 } ]

/-- `findTokenBySymbol`: first token whose symbol matches
case-insensitively. -/
def findTokenBySymbol (tokens : List Token) (symbol : String) : Option Token :=
  tokens.find? fun t => t.symbol.toLower == symbol.toLower

/-- `fallbackTokenBySymbol`. -/
def fallbackTokenBySymbol (symbol : String) : Option Token :=
  findTokenBySymbol fallbackTokenList symbol

/-! ## Entry point: `getQuoteComparison` (lines 806-927) -/

/-- `toOrder` (lines 799-804); the runtime value may be any string or
absent. -/
def toOrder (value : Option String) : OrderBy :=
  match value with
  | some "score" => OrderBy.score
  | some "net" => OrderBy.net
  | some "output" => OrderBy.output
  | _ => OrderBy.net

/-- `type Status`: the `status` field of a response. -/
inductive Status where
  | success
  | error
deriving DecidableEq, Repr

/-- `QuoteComparisonResult`.  String inputs that are echoed numerically
(`tokenAmount`, `gasPriceTokenIn`) are modelled by their parsed values; on
the error path `gasPriceTokenIn` is the literal `"0"`, i.e. `some 0`. -/
structure QuoteComparisonResult where
  tokenIn : String
  tokenOut : String
  tokenAmount : BNum
  tokenOutDecimals : ℕ
  gasPriceTokenIn : BNum
  order : OrderBy
  results : List QuoteRow
  error : Option String
  status : Status
deriving DecidableEq, Repr

/-- `QuoteComparisonInput`: every field of the request may be absent. -/
structure QuoteComparisonInput where
  tokenIn : Option String
  tokenOut : Option String
  tokenAmount : Option BNum
  order : Option String
deriving DecidableEq, Repr

/-- The settled outcomes of all the asynchronous collaborators of one
`getQuoteComparison` run: the token catalog read, the reference gas-price
call, the three `settleQuotes` batches (base aggregators, Blazing chunk
sizes, Blazing default), and whether the 100-second timer fired before the
pipeline finished. -/
structure PipelineEnv where
  tokenListOutcome : Except String (List Token)
  gasPriceOutcome : Except String BNum
  baseOutcomes : List (String × Option RawQuote)
  chunkOutcomes : List (String × Option RawQuote)
  defaultOutcomes : List (String × Option RawQuote)
  timedOut : Bool
deriving Repr

/-- The error response built in the `catch` block (lines 913-926). -/
def errorResponse (tokenIn tokenOut : String) (tokenAmount : BNum)
    (order : OrderBy) (message : String) : QuoteComparisonResult :=
  { tokenIn := tokenIn
    tokenOut := tokenOut
    tokenAmount := tokenAmount
    tokenOutDecimals := 0
    gasPriceTokenIn := some 0
    order := order
    results := []
    error := some message
    status := Status.error }

/-- The fixed message of the timeout rejection (line 906). -/
def timeoutMessage : String := "getQuoteComparison timed out after 100 seconds"

/-- `getQuoteComparison` (lines 806-927) over the settled outcomes of its
collaborators.  Control flow of the source: defaults for absent inputs;
`Promise.race` against the timer; token catalog read (which, unlike the
earlier revision, throws on failure); case-insensitive resolution of both
symbols with fallback and `throw new Error("Unsupported token symbol")`;
reference gas-price call; three settled quote batches; scoring with the
*raw* gas-price value (`BigNumber(gasPriceRaw)`, line 878); ranking;
success response.  Any rejection is caught once and becomes an error
response. -/
def getQuoteComparison (env : PipelineEnv) (data : QuoteComparisonInput) :
    QuoteComparisonResult :=
  let tokenInSymbol := data.tokenIn.getD "WETH"
  let tokenOutSymbol := data.tokenOut.getD "WBTC"
  let tokenAmount := data.tokenAmount.getD (some (10 ^ 18))
  let order := toOrder data.order
  if env.timedOut then
    errorResponse tokenInSymbol tokenOutSymbol tokenAmount order timeoutMessage
  else
    match env.tokenListOutcome with
    | Except.error e =>
        errorResponse tokenInSymbol tokenOutSymbol tokenAmount order e
    | Except.ok tokenList =>
        match findTokenBySymbol tokenList tokenInSymbol <|>
                fallbackTokenBySymbol tokenInSymbol,
              findTokenBySymbol tokenList tokenOutSymbol <|>
                fallbackTokenBySymbol tokenOutSymbol with
        | some _tokenIn, some tokenOut =>
            (match env.gasPriceOutcome with
             | Except.error e =>
                 errorResponse tokenInSymbol tokenOutSymbol tokenAmount order e
             | Except.ok gasPriceRaw =>
                 let quotes := settleQuotes env.baseOutcomes ++
                   settleQuotes env.chunkOutcomes ++ settleQuotes env.defaultOutcomes
                 let scored := calculateScores quotes tokenAmount gasPriceRaw
                 { tokenIn := tokenInSymbol
                   tokenOut := tokenOutSymbol
                   tokenAmount := tokenAmount
                   tokenOutDecimals := tokenOut.decimals
                   gasPriceTokenIn := gasPriceRaw
                   order := order
                   results := rankResults order scored
                   error := none
                   status := Status.success })
        | _, _ =>
            errorResponse tokenInSymbol tokenOutSymbol tokenAmount order
              "Unsupported token symbol"

/-! ## Helper lemmas about the scoring stages -/

/-- `distRow` only assigns `distance`. -/
theorem distRow_eq (m : BNum) (item : QuoteRow) :
    ∃ d, distRow m item = { item with distance := d } := by
  rw [distRow.eq_def]
  split
  · exact ⟨0, rfl⟩
  · match m with
    | none => exact ⟨0, rfl⟩
    | some mv =>
        simp only
        split
        · match h : item.netOutput with
          | none => exact ⟨0, rfl⟩
          | some n => exact ⟨_, rfl⟩
        · exact ⟨0, rfl⟩

/-- `scoreRow` only assigns `score`. -/
theorem scoreRow_eq (oMax oMin gMax gMin : ℚ) (item : QuoteRow) :
    ∃ sc, scoreRow oMax oMin gMax gMin item = { item with score := sc } := by
  rw [scoreRow]
  match item.simulationResult with
  | none => exact ⟨⊤, rfl⟩
  | some s =>
      simp only
      split
      · match s.outputTokenAmount with
        | none => exact ⟨⊤, rfl⟩
        | some ov => exact ⟨_, rfl⟩
      · exact ⟨⊤, rfl⟩

/-- Unfolding of `calculateScores` on a non-empty list. -/
theorem calculateScores_cons (x : RawQuote) (xs : List RawQuote) (a g : BNum) :
    calculateScores (x :: xs) a g =
      (if ((x :: xs).filter simUsable).length = 0 then (x :: xs).map allFailedRow
       else
         scoreStage (((x :: xs).map (netRow a g)).map
           (distRow (jsMaxList (((x :: xs).map (netRow a g)).map QuoteRow.netOutput))))) :=
  rfl

theorem scoreStage_length (rows : List QuoteRow) :
    (scoreStage rows).length = rows.length := by
  rw [scoreStage]
  split <;> simp

/-- The scoring engine never drops, adds or reorders rows. -/
theorem calculateScores_length (raw : List RawQuote) (a g : BNum) :
    (calculateScores raw a g).length = raw.length := by
  match raw with
  | [] => rfl
  | x :: xs =>
      rw [calculateScores_cons]
      split
      · simp
      · rw [scoreStage_length]
        simp

/-- The tuple of fields that scoring carries through unchanged. -/
def carriedOfRow (row : QuoteRow) :
    String × Option BNum × Option ℚ × Option (List String) × Option String ×
      Option Calldata × Option SimulationResult :=
  (row.aggregator, row.amountOut, row.gasUsed, row.sources, row.rawResponse,
   row.calldataResponse, row.simulationResult)

/-- The same tuple read off an input `RawQuote`. -/
def carriedOfQuote (item : RawQuote) :
    String × Option BNum × Option ℚ × Option (List String) × Option String ×
      Option Calldata × Option SimulationResult :=
  (item.aggregator, item.amountOut, item.gasUsed, item.sources, item.rawResponse,
   item.calldataResponse, item.simulationResult)

theorem carriedOfRow_allFailedRow (item : RawQuote) :
    carriedOfRow (allFailedRow item) = carriedOfQuote item := rfl

theorem carriedOfRow_netRow (a g : BNum) (item : RawQuote) :
    carriedOfRow (netRow a g item) = carriedOfQuote item := rfl

theorem carriedOfRow_distRow (m : BNum) (item : QuoteRow) :
    carriedOfRow (distRow m item) = carriedOfRow item := by
  obtain ⟨d, hd⟩ := distRow_eq m item
  rw [hd]
  rfl

theorem carriedOfRow_scoreRow (oMax oMin gMax gMin : ℚ) (item : QuoteRow) :
    carriedOfRow (scoreRow oMax oMin gMax gMin item) = carriedOfRow item := by
  obtain ⟨sc, hsc⟩ := scoreRow_eq oMax oMin gMax gMin item
  rw [hsc]
  rfl

theorem scoreStage_getElem? (rows : List QuoteRow) (i : ℕ) :
    ∃ f, (∀ item, carriedOfRow (f item) = carriedOfRow item ∧
            (f item).netOutput = item.netOutput ∧ (f item).distance = item.distance ∧
            (f item).failed = item.failed) ∧
      (scoreStage rows)[i]? = (rows[i]?).map f := by
  rw [scoreStage]
  split
  · refine ⟨fun item => { item with score := ⊤ }, ?_, ?_⟩
    · intro item
      exact ⟨rfl, rfl, rfl, rfl⟩
    · simp
  · refine ⟨scoreRow (listMax ((rows.filter simScoreable).map simOutVal))
        (listMin ((rows.filter simScoreable).map simOutVal))
        (listMax ((rows.filter simScoreable).map simGasVal))
        (listMin ((rows.filter simScoreable).map simGasVal)), ?_, ?_⟩
    · intro item
      obtain ⟨sc, hsc⟩ := scoreRow_eq _ _ _ _ item
      rw [hsc]
      exact ⟨rfl, rfl, rfl, rfl⟩
    · simp

/-- Pointwise description of the scoring output: the `i`-th output row
carries the `i`-th input row's fields. -/
theorem calculateScores_carried (raw : List RawQuote) (a g : BNum) (i : ℕ)
    (item : RawQuote) (hitem : raw[i]? = some item) :
    ∃ row, (calculateScores raw a g)[i]? = some row ∧
      carriedOfRow row = carriedOfQuote item := by
  match raw with
  | [] => simp at hitem
  | x :: xs =>
      rw [calculateScores_cons]
      split
      · refine ⟨allFailedRow item, ?_, carriedOfRow_allFailedRow item⟩
        rw [List.getElem?_map, hitem]
        rfl
      · obtain ⟨f, hf, hpt⟩ := scoreStage_getElem?
          (((x :: xs).map (netRow a g)).map
            (distRow (jsMaxList (((x :: xs).map (netRow a g)).map QuoteRow.netOutput)))) i
        refine ⟨f (distRow (jsMaxList (((x :: xs).map (netRow a g)).map QuoteRow.netOutput))
          (netRow a g item)), ?_, ?_⟩
        · rw [hpt, List.getElem?_map, List.getElem?_map, hitem]
          rfl
        · rw [(hf _).1, carriedOfRow_distRow, carriedOfRow_netRow]

/-! ## Claims about `calculateScores` -/

/-- C10: `calculateScores` returns a list of exactly the same length in
the same order; the `i`-th output row carries the `i`-th input row's
`aggregator`, `amountOut`, `gasUsed`, `sources`, `rawResponse`,
`calldataResponse` and `simulationResult` unchanged, and only the derived
fields (`netOutput`, `distance`, `score`) and the `failed` flag are set.
Scoring never drops, adds or reorders rows. -/
theorem C10_scoring_preserves_rows (raw : List RawQuote) (a g : BNum) (i : ℕ) :
    (calculateScores raw a g).length = raw.length ∧
    ((calculateScores raw a g)[i]?).map QuoteRow.aggregator =
      (raw[i]?).map RawQuote.aggregator ∧
    ((calculateScores raw a g)[i]?).map QuoteRow.amountOut =
      (raw[i]?).map RawQuote.amountOut ∧
    ((calculateScores raw a g)[i]?).map QuoteRow.gasUsed =
      (raw[i]?).map RawQuote.gasUsed ∧
    ((calculateScores raw a g)[i]?).map QuoteRow.sources =
      (raw[i]?).map RawQuote.sources ∧
    ((calculateScores raw a g)[i]?).map QuoteRow.rawResponse =
      (raw[i]?).map RawQuote.rawResponse ∧
    ((calculateScores raw a g)[i]?).map QuoteRow.calldataResponse =
      (raw[i]?).map RawQuote.calldataResponse ∧
    ((calculateScores raw a g)[i]?).map QuoteRow.simulationResult =
      (raw[i]?).map RawQuote.simulationResult := by
  refine ⟨calculateScores_length raw a g, ?_⟩
  match hitem : raw[i]? with
  | none =>
      have hlen : raw.length ≤ i := by
        simpa using List.getElem?_eq_none_iff.mp hitem
      have hout : (calculateScores raw a g)[i]? = none := by
        apply List.getElem?_eq_none
        rw [calculateScores_length]
        exact hlen
      rw [hout]
      exact ⟨rfl, rfl, rfl, rfl, rfl, rfl, rfl⟩
  | some item =>
      obtain ⟨row, hrow, hc⟩ := calculateScores_carried raw a g i item hitem
      rw [hrow]
      simp only [carriedOfRow, carriedOfQuote, Prod.mk.injEq] at hc
      obtain ⟨h1, h2, h3, h4, h5, h6, h7⟩ := hc
      simp [h1, h2, h3, h4, h5, h6, h7]

/-- Witness for C10 at a concrete input (the last conjuncts have no
propositional hypotheses, but the statement is applied at a concrete
index and list to exhibit evaluability). -/
theorem C10_scoring_preserves_rows_witness :
    (calculateScores [rejectedQuote "X"] (some 1) (some 0)).length = 1 := by
  have h := C10_scoring_preserves_rows [rejectedQuote "X"] (some 1) (some 0) 0
  simpa using h.1

/-- A row that is not successfully simulated gets score `+Infinity` from
`scoreRow`. -/
theorem scoreRow_score_top (oMax oMin gMax gMin : ℚ) (item : QuoteRow)
    (hsim : ∀ s, item.simulationResult = some s → s.isSuccessful = false) :
    (scoreRow oMax oMin gMax gMin item).score = ⊤ := by
  rw [scoreRow.eq_def]
  cases hs : item.simulationResult with
  | none => rfl
  | some s =>
      simp only [hsim s hs]
      rfl

/-- The simulation field survives `scoreRow`. -/
theorem scoreRow_sim (oMax oMin gMax gMin : ℚ) (item : QuoteRow) :
    (scoreRow oMax oMin gMax gMin item).simulationResult = item.simulationResult := by
  obtain ⟨sc, hsc⟩ := scoreRow_eq oMax oMin gMax gMin item
  rw [hsc]

/-- Any member of a `scoreStage` output whose simulation is absent or
unsuccessful has score `+Infinity`. -/
theorem scoreStage_score_top {rows : List QuoteRow} {row : QuoteRow}
    (hrow : row ∈ scoreStage rows)
    (hsim : ∀ s, row.simulationResult = some s → s.isSuccessful = false) :
    row.score = ⊤ := by
  rw [scoreStage] at hrow
  split at hrow
  · obtain ⟨item, _, rfl⟩ := List.mem_map.mp hrow
    rfl
  · obtain ⟨item, _, rfl⟩ := List.mem_map.mp hrow
    apply scoreRow_score_top
    intro s hs
    exact hsim s (by rw [scoreRow_sim]; exact hs)

/-- C2: a row whose simulation is absent or marked unsuccessful always
receives score `+Infinity`; and on a set consisting entirely of failed
rows (all value fields null and no simulation, per the data-model
invariant) every output row has score `+Infinity`, `netOutput = 0` and
`distance = 0`, returned as an ordinary result of the same length (the
engine is a total function, never an error). -/
theorem C2_failed_rows_unranked (raw : List RawQuote) (a g : BNum) :
    (∀ row ∈ calculateScores raw a g,
        (∀ s, row.simulationResult = some s → s.isSuccessful = false) →
        row.score = ⊤) ∧
    ((∀ q ∈ raw, q.amountOut = none ∧ q.gasUsed = none ∧ q.simulationResult = none) →
        (calculateScores raw a g).length = raw.length ∧
        ∀ row ∈ calculateScores raw a g,
          row.score = ⊤ ∧ row.netOutput = some 0 ∧ row.distance = 0) := by
  constructor
  · intro row hrow hsim
    match raw with
    | [] => simp [calculateScores] at hrow
    | x :: xs =>
        rw [calculateScores_cons] at hrow
        split at hrow
        · obtain ⟨item, _, rfl⟩ := List.mem_map.mp hrow
          rfl
        · exact scoreStage_score_top hrow hsim
  · intro hall
    refine ⟨calculateScores_length raw a g, ?_⟩
    intro row hrow
    match raw with
    | [] => simp [calculateScores] at hrow
    | x :: xs =>
        rw [calculateScores_cons] at hrow
        have hfilter : (x :: xs).filter simUsable = [] := by
          rw [List.filter_eq_nil_iff]
          intro q hq
          have := (hall q hq).2.2
          simp [simUsable, this]
        rw [if_pos (by rw [hfilter]; rfl)] at hrow
        obtain ⟨item, _, rfl⟩ := List.mem_map.mp hrow
        exact ⟨rfl, rfl, rfl⟩

/-- Witness for C2: two coordinator-failure rows; both come back with
score `+Infinity`, zero net output and zero distance. -/
theorem C2_failed_rows_unranked_witness :
    ∀ row ∈ calculateScores [rejectedQuote "KyberSwap", rejectedQuote "1Inch"]
        (some 1) (some 0),
      row.score = ⊤ ∧ row.netOutput = some 0 ∧ row.distance = 0 := by
  have h := (C2_failed_rows_unranked [rejectedQuote "KyberSwap", rejectedQuote "1Inch"]
    (some 1) (some 0)).2
  exact fun row hrow => (h (by intro q hq; fin_cases hq <;> exact ⟨rfl, rfl, rfl⟩)).2 row hrow

theorem distRow_failed (m : BNum) (item : QuoteRow) :
    (distRow m item).failed = item.failed := by
  obtain ⟨d, hd⟩ := distRow_eq m item
  rw [hd]

theorem distRow_netOutput (m : BNum) (item : QuoteRow) :
    (distRow m item).netOutput = item.netOutput := by
  obtain ⟨d, hd⟩ := distRow_eq m item
  rw [hd]

theorem distRow_sim (m : BNum) (item : QuoteRow) :
    (distRow m item).simulationResult = item.simulationResult := by
  obtain ⟨d, hd⟩ := distRow_eq m item
  rw [hd]

theorem scoreRow_failed (oMax oMin gMax gMin : ℚ) (item : QuoteRow) :
    (scoreRow oMax oMin gMax gMin item).failed = item.failed := by
  obtain ⟨sc, hsc⟩ := scoreRow_eq oMax oMin gMax gMin item
  rw [hsc]

theorem scoreRow_netOutput (oMax oMin gMax gMin : ℚ) (item : QuoteRow) :
    (scoreRow oMax oMin gMax gMin item).netOutput = item.netOutput := by
  obtain ⟨sc, hsc⟩ := scoreRow_eq oMax oMin gMax gMin item
  rw [hsc]

theorem scoreRow_distance (oMax oMin gMax gMin : ℚ) (item : QuoteRow) :
    (scoreRow oMax oMin gMax gMin item).distance = item.distance := by
  obtain ⟨sc, hsc⟩ := scoreRow_eq oMax oMin gMax gMin item
  rw [hsc]

/-- Membership form of the `scoreStage` frame property. -/
theorem scoreStage_mem {rows : List QuoteRow} {row : QuoteRow}
    (hrow : row ∈ scoreStage rows) :
    ∃ item ∈ rows, carriedOfRow row = carriedOfRow item ∧
      row.failed = item.failed ∧ row.netOutput = item.netOutput ∧
      row.distance = item.distance := by
  rw [scoreStage] at hrow
  split at hrow
  · obtain ⟨item, hm, rfl⟩ := List.mem_map.mp hrow
    exact ⟨item, hm, rfl, rfl, rfl, rfl⟩
  · obtain ⟨item, hm, rfl⟩ := List.mem_map.mp hrow
    exact ⟨item, hm, carriedOfRow_scoreRow _ _ _ _ item, scoreRow_failed _ _ _ _ item,
      scoreRow_netOutput _ _ _ _ item, scoreRow_distance _ _ _ _ item⟩

/-- Membership form of the scoring frame property on the normal (not
all-failed) path. -/
theorem calculateScores_mem_normal {raw : List RawQuote} {a g : BNum} {row : QuoteRow}
    (hus : ¬ ((raw.filter simUsable).length = 0))
    (hrow : row ∈ calculateScores raw a g) :
    ∃ item ∈ raw, carriedOfRow row = carriedOfQuote item ∧
      row.failed = item.failed.getD (item.amountOut.isNone || item.gasUsed.isNone) := by
  match raw with
  | [] => simp at hus
  | x :: xs =>
      rw [calculateScores_cons, if_neg hus] at hrow
      obtain ⟨item1, hm1, hc1, hf1, _, _⟩ := scoreStage_mem hrow
      obtain ⟨item2, hm2, rfl⟩ := List.mem_map.mp hm1
      obtain ⟨item3, hm3, rfl⟩ := List.mem_map.mp hm2
      refine ⟨item3, hm3, ?_, ?_⟩
      · rw [hc1, carriedOfRow_distRow, carriedOfRow_netRow]
      · rw [hf1, distRow_failed]
        rfl

/-- A `RawQuote` shaped like a coordinator failure marker. -/
def failedShaped (r : RawQuote) : Prop :=
  r.failed = some true ∧ r.amountOut = none ∧ r.gasUsed = none ∧
    r.sources = none ∧ r.simulationResult = none

/-- A `RawQuote` shaped like an adapter success value: `failed` unset and
`amountOut`, `gasUsed`, `sources` all non-null (every adapter builds its
result object with a string `amountOut`, a numeric `gasUsed` and an array
`sources`, and never sets `failed`). -/
def adapterShaped (r : RawQuote) : Prop :=
  r.failed = none ∧ r.amountOut.isSome ∧ r.gasUsed.isSome ∧ r.sources.isSome

/-- C6 (amended): the coordinator only emits rows that are either failure
markers (`failed = true` with every value field null and no simulation)
or adapter values (`failed` unset, value fields non-null); and for such
inputs the scorer preserves the equivalence `failed = true ↔ amountOut,
gasUsed, sources all null and simulation absent` *provided at least one
row carries usable simulation data* — the all-failed-simulation branch
instead marks every row failed regardless of its fields (see the
counterexample). -/
theorem C6_failed_iff_null_fields (tasks : List (String × Option RawQuote))
    (raw : List RawQuote) (a g : BNum) :
    ((∀ t ∈ tasks, ∀ q, t.2 = some q → adapterShaped q) →
      ∀ r ∈ settleQuotes tasks, failedShaped r ∨ adapterShaped r) ∧
    ((∀ r ∈ raw, failedShaped r ∨ adapterShaped r) →
      (∃ r ∈ raw, simUsable r = true) →
      ∀ row ∈ calculateScores raw a g,
        (row.failed = true ↔
          (row.amountOut = none ∧ row.gasUsed = none ∧ row.sources = none ∧
            row.simulationResult = none))) := by
  constructor
  · intro htasks r hr
    rw [settleQuotes] at hr
    obtain ⟨t, ht, rfl⟩ := List.mem_map.mp hr
    match hq : t.2 with
    | some v =>
        right
        simpa [hq] using htasks t ht v hq
    | none =>
        left
        simp [hq]
        exact ⟨rfl, rfl, rfl, rfl, rfl⟩
  · intro hshape hus row hrow
    have hfil : ¬ ((raw.filter simUsable).length = 0) := by
      obtain ⟨r, hr, hu⟩ := hus
      intro h0
      have : raw.filter simUsable = [] := List.length_eq_zero.mp h0
      have := List.filter_eq_nil_iff.mp this r hr
      simp [hu] at this
    obtain ⟨item, hm, hc, hf⟩ := calculateScores_mem_normal hfil hrow
    simp only [carriedOfRow, carriedOfQuote, Prod.mk.injEq] at hc
    obtain ⟨_, hAmount, hGas, hSources, _, _, hSim⟩ := hc
    rcases hshape item hm with hfs | has
    · obtain ⟨f1, f2, f3, f4, f5⟩ := hfs
      rw [hf, hAmount, hGas, hSources, hSim, f1, f2, f3, f4, f5]
      simp
    · obtain ⟨f1, f2, f3, f4⟩ := has
      rw [hf, hAmount, hGas, hSources, f1]
      constructor
      · intro hfail
        rw [Option.getD_none] at hfail
        rcases Option.isSome_iff_exists.mp f2 with ⟨v, hv⟩
        simp [hv] at hfail
        rw [hfail] at f3
        simp at f3
      · intro ⟨h1, _, _, _⟩
        rw [h1] at f2
        simp at f2

/-- A successful simulation result used by concrete test vectors: output
amount 5, approve gas 1, swap gas 1. -/
def simOk : SimulationResult :=
  { balanceOfBefore := "0"
    balanceOfAfter := "5"
    outputTokenAmount := some 5
    outputToken := "0xout"
    approveTxGasUsed := 1
    swapTxGasUsed := 1
    isSuccessful := true
    simBlockNumber := "1"
    simTime := "0"
    simTimeTotal := "0"
    requestId := "r" }

/-- A well-formed adapter quote with a successful simulation. -/
def quoteOk : RawQuote :=
  { aggregator := "1Inch"
    amountOut := some (some 5)
    gasUsed := some 1
    sources := some ["UNISWAP_V3"]
    rawResponse := none
    calldataResponse := none
    simulationResult := some simOk
    failed := none }

/-- Witness for C6: a coordinator failure row next to a simulated adapter
row; the equivalence holds for both output rows. -/
theorem C6_failed_iff_null_fields_witness :
    ∀ row ∈ calculateScores [rejectedQuote "KyberSwap", quoteOk] (some 1) (some 0),
      (row.failed = true ↔
        (row.amountOut = none ∧ row.gasUsed = none ∧ row.sources = none ∧
          row.simulationResult = none)) := by
  have h := (C6_failed_iff_null_fields [] [rejectedQuote "KyberSwap", quoteOk]
    (some 1) (some 0)).2
  apply h
  · intro r hr
    fin_cases hr
    · left
      exact ⟨rfl, rfl, rfl, rfl, rfl⟩
    · right
      exact ⟨rfl, by simp [quoteOk], by simp [quoteOk], by simp [quoteOk]⟩
  · refine ⟨quoteOk, by simp, ?_⟩
    simp only [simUsable, quoteOk, simOk]
    norm_num

/-- Counterexample for C6 as stated: an adapter row with non-null
`amountOut`, `gasUsed` and `sources` (the KyberSwap fallback quote) enters
a batch with no usable simulation data; the scorer returns it with
`failed = true` even though its value fields are non-null, violating the
claimed equivalence. -/
theorem C6_counterexample :
    (calculateScores [fallbackQuote "KyberSwap"] (some 1) (some 0)).map
        (fun r => (r.failed, r.amountOut.isSome, r.gasUsed.isSome, r.sources.isSome)) =
      [(true, true, true, true)] := by
  rfl

/-! ## Claims about the coordinator and the unit normalizer -/

/-- C8 (amended): `settleQuotes` yields exactly one `RawQuote` per task,
in request order; a rejected task is replaced by a synthetic row carrying
the task's label with `failed = true` and all value fields null, and a
fulfilled task's value is passed through untouched — one task's failure
never removes, aborts or reorders sibling outcomes.  An adapter call that
completes with unusable upstream data is *not* marked failed: the adapter
returns `fallbackQuote`, whose `failed` flag is unset and whose value
fields are the non-null zero values. -/
theorem C8_settle_all_preserves_order (tasks : List (String × Option RawQuote)) :
    (settleQuotes tasks).length = tasks.length ∧
    (∀ (i : ℕ) (label : String) (q : RawQuote), tasks[i]? = some (label, some q) →
        (settleQuotes tasks)[i]? = some q) ∧
    (∀ (i : ℕ) (label : String), tasks[i]? = some (label, none) →
        (settleQuotes tasks)[i]? = some (rejectedQuote label)) ∧
    (∀ label, (rejectedQuote label).aggregator = label ∧
        (rejectedQuote label).failed = some true ∧
        (rejectedQuote label).amountOut = none ∧
        (rejectedQuote label).gasUsed = none ∧
        (rejectedQuote label).sources = none ∧
        (rejectedQuote label).simulationResult = none) ∧
    (∀ label, (fallbackQuote label).aggregator = label ∧
        (fallbackQuote label).failed = none ∧
        (fallbackQuote label).amountOut = some (some 0) ∧
        (fallbackQuote label).gasUsed = some 0 ∧
        (fallbackQuote label).sources = some []) := by
  have hpt : ∀ i : ℕ, (settleQuotes tasks)[i]? =
      (tasks[i]?).map (fun t =>
        match t.2 with
        | some v => v
        | none => rejectedQuote t.1) := by
    intro i
    rw [settleQuotes, List.getElem?_map]
  refine ⟨by simp [settleQuotes], ?_, ?_, ?_, ?_⟩
  · intro i label q h
    rw [hpt i, h]
    rfl
  · intro i label h
    rw [hpt i, h]
    rfl
  · intro label
    exact ⟨rfl, rfl, rfl, rfl, rfl, rfl⟩
  · intro label
    exact ⟨rfl, rfl, rfl, rfl, rfl⟩

/-- Witness for C8: a batch of one fulfilled and one rejected task settles
to the fulfilled value followed by the synthetic failure row. -/
theorem C8_settle_all_preserves_order_witness :
    (settleQuotes [("1Inch", some quoteOk), ("KyberSwap", none)])[0]? = some quoteOk ∧
    (settleQuotes [("1Inch", some quoteOk), ("KyberSwap", none)])[1]? =
      some (rejectedQuote "KyberSwap") := by
  have h := C8_settle_all_preserves_order [("1Inch", some quoteOk), ("KyberSwap", none)]
  exact ⟨h.2.1 0 "1Inch" quoteOk rfl, h.2.2.1 1 "KyberSwap" rfl⟩

/-- Counterexample for C8 as stated: an adapter call that completed but
yielded unusable data is recorded as the adapter's own fallback row,
whose `failed` flag is unset (JavaScript `undefined`), not `true`. -/
theorem C8_counterexample :
    (settleQuotes [("KyberSwap", some (fallbackQuote "KyberSwap"))]).map RawQuote.failed =
      [none] ∧ (none : Option Bool) ≠ some true := by
  exact ⟨rfl, by simp⟩

/-- C3 (amended): in the earlier revision, `toGasPriceTokenIn` divides the
raw reference value `R` by `2^96` with `bignumber.js` division, i.e.
rounded half-up to 20 decimal places; the result equals `R / 2^96` exactly
if and only if the quotient fits in 20 decimal places, which holds
whenever `2^76 ∣ R` — in particular `R = 2^96` gives exactly 1.  (In the
later revision no division happens at all: `getQuoteComparison` passes the
raw value straight to the scoring engine and echoes it in the response,
see `C3_counterexample` and `getQuoteComparison`.) -/
theorem C3_gas_ratio_normalization (R : ℕ) :
    toGasPriceTokenIn (some (R : ℚ)) = bnRound 20 ((R : ℚ) / 2 ^ 96) ∧
    ((2 ^ 76 : ℕ) ∣ R → toGasPriceTokenIn (some (R : ℚ)) = (R : ℚ) / 2 ^ 96) := by
  refine ⟨rfl, ?_⟩
  intro ⟨k, hk⟩
  rw [toGasPriceTokenIn]
  apply bnRound_eq_self 20 (k := (k * 5 ^ 20 : ℤ))
  subst hk
  push_cast
  field_simp
  ring

/-- Witness for C3: the claim's own example value `R = 2^96 =
79228162514264337593543950336` is divisible by `2^76`, and the earlier
revision's ratio is exactly 1 there. -/
theorem C3_gas_ratio_normalization_witness :
    (2 ^ 76 : ℕ) ∣ 2 ^ 96 ∧ toGasPriceTokenIn (some ((2 ^ 96 : ℕ) : ℚ)) = 1 := by
  have hdvd : (2 ^ 76 : ℕ) ∣ 2 ^ 96 := pow_dvd_pow 2 (by norm_num)
  have h := (C3_gas_ratio_normalization (2 ^ 96)).2 hdvd
  refine ⟨hdvd, ?_⟩
  rw [h]
  push_cast
  norm_num

/-- Counterexample for C3 as stated: for the raw value `R = 1` the
computed ratio is `0`, not the exact value `1 / 2^96` — `bignumber.js`
division rounds to 20 decimal places, and `10^20 / 2^96 < 1/2`. -/
theorem C3_counterexample :
    toGasPriceTokenIn (some 1) = 0 ∧ (0 : ℚ) ≠ 1 / 2 ^ 96 := by
  constructor
  · rw [toGasPriceTokenIn, bnRound]
    norm_num
  · norm_num

/-! ## Facts about `Math.max` folds -/

theorem foldl_jsMax_le {l : List BNum} {acc : BNum} {m : ℚ}
    (h : l.foldl jsMax acc = some m) :
    (∃ a, acc = some a ∧ a ≤ m) ∧ ∀ x ∈ l, ∃ q, x = some q ∧ q ≤ m := by
  induction l generalizing acc with
  | nil =>
      refine ⟨⟨m, by simpa using h, le_rfl⟩, by simp⟩
  | cons x xs ih =>
      rw [List.foldl_cons] at h
      obtain ⟨⟨a', ha', hle'⟩, hxs⟩ := ih h
      match hacc : acc, hx : x with
      | some av, some xv =>
          have heq : a' = max av xv := by
            simpa [jsMax, bnMax] using ha'.symm
          subst heq
          refine ⟨⟨av, rfl, le_trans (le_max_left _ _) hle'⟩, ?_⟩
          intro y hy
          rcases List.mem_cons.mp hy with rfl | hmem
          · exact ⟨xv, rfl, le_trans (le_max_right _ _) hle'⟩
          · exact hxs y hmem
      | some av, none => simp [jsMax, bnMax] at ha'
      | none, _ => simp [jsMax, bnMax] at ha'

theorem foldl_jsMax_mem {l : List BNum} {acc : BNum} {m : ℚ}
    (h : l.foldl jsMax acc = some m) :
    acc = some m ∨ some m ∈ l := by
  induction l generalizing acc with
  | nil => left; simpa using h
  | cons x xs ih =>
      rw [List.foldl_cons] at h
      rcases ih h with hj | hmem
      · match hacc : acc, hx : x with
        | some av, some xv =>
            have heq : max av xv = m := by simpa [jsMax, bnMax] using hj
            rcases max_choice av xv with hc | hc <;> rw [hc] at heq
            · left; rw [heq]
            · right; rw [← heq]; simp
        | some av, none => simp [jsMax, bnMax] at hj
        | none, _ => simp [jsMax, bnMax] at hj
      · right; exact List.mem_cons_of_mem _ hmem

/-- Every entry of a list whose `Math.max` is the finite value `m` is a
finite value at most `m`. -/
theorem jsMaxList_le {l : List BNum} {m : ℚ} (h : jsMaxList l = some m) :
    ∀ x ∈ l, ∃ q, x = some q ∧ q ≤ m := by
  match l with
  | [] => simp [jsMaxList] at h
  | x :: xs =>
      rw [jsMaxList] at h
      obtain ⟨ha, hxs⟩ := foldl_jsMax_le h
      intro y hy
      rcases List.mem_cons.mp hy with rfl | hmem
      · exact ha
      · exact hxs y hmem

/-- The `Math.max` of a list, when finite, is attained by some entry. -/
theorem jsMaxList_mem {l : List BNum} {m : ℚ} (h : jsMaxList l = some m) :
    some m ∈ l := by
  match l with
  | [] => simp [jsMaxList] at h
  | x :: xs =>
      rw [jsMaxList] at h
      rcases foldl_jsMax_mem h with rfl | hmem
      · simp
      · exact List.mem_cons_of_mem _ hmem

/-- Closed form of the distance assignment. -/
theorem distRow_distance (M : BNum) (item : QuoteRow) :
    (distRow M item).distance =
      if item.failed then 0
      else
        match M with
        | none => 0
        | some m =>
            if 0 < m then
              match item.netOutput with
              | none => 0
              | some n => bnRound 8 ((m - n) / m * 100)
            else 0 := by
  rw [distRow.eq_def]
  split
  · simp_all
  · rename_i hfail
    simp only [Bool.not_eq_true] at hfail
    match M with
    | none => simp [hfail]
    | some m =>
        simp only [hfail, Bool.false_eq_true, if_false]
        split
        · match hn : item.netOutput with
          | none => rfl
          | some n => rfl
        · rfl

/-- The scoring stage leaves the list of net outputs untouched. -/
theorem scoreStage_netOutputs (rows : List QuoteRow) :
    (scoreStage rows).map QuoteRow.netOutput = rows.map QuoteRow.netOutput := by
  rw [scoreStage]
  split
  · rw [List.map_map]
    rfl
  · rw [List.map_map]
    apply List.map_congr_left
    intro item _
    exact scoreRow_netOutput _ _ _ _ item

/-- On the normal path the output net outputs are those of the `withNet`
stage. -/
theorem calculateScores_netOutputs_normal {raw : List RawQuote} {a g : BNum}
    (hus : ¬ ((raw.filter simUsable).length = 0)) :
    (calculateScores raw a g).map QuoteRow.netOutput =
      (raw.map (netRow a g)).map QuoteRow.netOutput := by
  match raw with
  | [] => simp at hus
  | x :: xs =>
      rw [calculateScores_cons, if_neg hus, scoreStage_netOutputs, List.map_map]
      apply List.map_congr_left
      intro item _
      exact distRow_netOutput _ item

/-- On the normal path every output row corresponds to a `withNet` row
with the same net output and failed flag, and its distance is the
`distRow` value at the overall net-output maximum. -/
theorem calculateScores_row_normal {raw : List RawQuote} {a g : BNum} {row : QuoteRow}
    (hus : ¬ ((raw.filter simUsable).length = 0))
    (hrow : row ∈ calculateScores raw a g) :
    ∃ item ∈ raw.map (netRow a g),
      row.netOutput = item.netOutput ∧ row.failed = item.failed ∧
      row.distance =
        (distRow (jsMaxList ((raw.map (netRow a g)).map QuoteRow.netOutput)) item).distance := by
  match raw with
  | [] => simp at hus
  | x :: xs =>
      rw [calculateScores_cons, if_neg hus] at hrow
      obtain ⟨item1, hm1, _, hf1, hn1, hd1⟩ := scoreStage_mem hrow
      obtain ⟨item2, hm2, rfl⟩ := List.mem_map.mp hm1
      refine ⟨item2, hm2, ?_, ?_, ?_⟩
      · rw [hn1, distRow_netOutput]
      · rw [hf1, distRow_failed]
      · exact hd1

/-! ## Concrete square-root values used by the test vectors -/

theorem sqrtUnits_two : sqrtUnits 2 = 141421356237309504880 := by
  have h0 : ⌊(2:ℚ) * 10 ^ 40⌋ = 2 * 10 ^ 40 := by norm_num
  rw [sqrtUnits, h0]
  decide

theorem ratSqrt20_two : ratSqrt20 2 = 141421356237309504880 / 10 ^ 20 := by
  rw [ratSqrt20, sqrtUnits_two]
  norm_num

theorem ratSqrt20_zero : ratSqrt20 0 = 0 := by
  rw [ratSqrt20, sqrtUnits]
  norm_num [isqrt]

/-! ## Claim C4: the distance metric -/

/-- C4 (amended): for every scored set, every row's distance is
non-negative; failed rows have distance 0; a row whose `netOutput` equals
the set's maximum has distance 0; and a non-failed row's distance equals
`((netOutputMax − netOutput) / netOutputMax) × 100` *rounded half-up to 8
decimal places* when `netOutputMax > 0`, and 0 when `netOutputMax ≤ 0`. -/
theorem C4_distance_properties (raw : List RawQuote) (a g : BNum) :
    (∀ row ∈ calculateScores raw a g, 0 ≤ row.distance) ∧
    (∀ row ∈ calculateScores raw a g, row.failed = true → row.distance = 0) ∧
    (∀ row ∈ calculateScores raw a g, ∀ m : ℚ,
        jsMaxList ((calculateScores raw a g).map QuoteRow.netOutput) = some m →
        row.netOutput = some m → row.distance = 0) ∧
    (∀ row ∈ calculateScores raw a g, ∀ m n : ℚ,
        jsMaxList ((calculateScores raw a g).map QuoteRow.netOutput) = some m →
        row.failed = false → row.netOutput = some n →
        row.distance = if 0 < m then bnRound 8 ((m - n) / m * 100) else 0) := by
  match raw with
  | [] =>
      refine ⟨?_, ?_, ?_, ?_⟩ <;> intro row hrow <;> simp [calculateScores] at hrow
  | x :: xs =>
      by_cases hus : ((x :: xs).filter simUsable).length = 0
      · have hout : calculateScores (x :: xs) a g = (x :: xs).map allFailedRow := by
          rw [calculateScores_cons, if_pos hus]
        refine ⟨?_, ?_, ?_, ?_⟩ <;> rw [hout] <;> intro row hrow
        · obtain ⟨q, _, rfl⟩ := List.mem_map.mp hrow
          exact le_refl 0
        · obtain ⟨q, _, rfl⟩ := List.mem_map.mp hrow
          intro _
          rfl
        · obtain ⟨q, _, rfl⟩ := List.mem_map.mp hrow
          intro m _ _
          rfl
        · obtain ⟨q, _, rfl⟩ := List.mem_map.mp hrow
          intro m n _ hfail _
          simp [allFailedRow] at hfail
      · have hnet_eq := calculateScores_netOutputs_normal (a := a) (g := g) hus
        refine ⟨?_, ?_, ?_, ?_⟩ <;> intro row hrow
        · obtain ⟨item, hm, hnet, hfail, hdist⟩ := calculateScores_row_normal hus hrow
          rw [distRow_distance] at hdist
          cases hfb : item.failed with
          | true => simp only [hfb, if_true] at hdist; rw [hdist]
          | false =>
              simp only [hfb, Bool.false_eq_true, if_false] at hdist
              match hMm : jsMaxList (((x :: xs).map (netRow a g)).map QuoteRow.netOutput) with
              | none => rw [hMm] at hdist; simp only [] at hdist; rw [hdist]
              | some m =>
                  rw [hMm] at hdist
                  simp only [] at hdist
                  by_cases h0m : 0 < m
                  · rw [if_pos h0m] at hdist
                    match hn : item.netOutput with
                    | none => rw [hn] at hdist; simp only [] at hdist; rw [hdist]
                    | some n =>
                        rw [hn] at hdist
                        simp only [] at hdist
                        rw [hdist]
                        have hmem : item.netOutput ∈
                            ((x :: xs).map (netRow a g)).map QuoteRow.netOutput :=
                          List.mem_map_of_mem _ hm
                        obtain ⟨q, hq, hle⟩ := jsMaxList_le hMm _ hmem
                        rw [hn] at hq
                        cases hq
                        apply bnRound_nonneg
                        have h1 : (0:ℚ) ≤ m - n := sub_nonneg.mpr hle
                        have h2 : (0:ℚ) ≤ (m - n) / m := div_nonneg h1 (le_of_lt h0m)
                        nlinarith
                  · rw [if_neg h0m] at hdist; rw [hdist]
        · obtain ⟨item, hm, hnet, hfail, hdist⟩ := calculateScores_row_normal hus hrow
          intro hft
          rw [hfail] at hft
          rw [distRow_distance, hft] at hdist
          simpa using hdist
        · obtain ⟨item, hm, hnet, hfail, hdist⟩ := calculateScores_row_normal hus hrow
          intro m hmax hrownet
          rw [hnet_eq] at hmax
          rw [distRow_distance] at hdist
          cases hfb : item.failed with
          | true => simp only [hfb, if_true] at hdist; exact hdist
          | false =>
              simp only [hfb, Bool.false_eq_true, if_false] at hdist
              rw [hmax] at hdist
              simp only [] at hdist
              have hin : item.netOutput = some m := by rw [← hnet]; exact hrownet
              rw [hin] at hdist
              simp only [] at hdist
              by_cases h0m : 0 < m
              · rw [if_pos h0m] at hdist
                rw [hdist]
                have hz : (m - m) / m * 100 = 0 := by
                  rw [sub_self, zero_div, zero_mul]
                rw [hz, bnRound_zero]
              · rw [if_neg h0m] at hdist; exact hdist
        · obtain ⟨item, hm, hnet, hfail, hdist⟩ := calculateScores_row_normal hus hrow
          intro m n hmax hft hrownet
          rw [hnet_eq] at hmax
          rw [hfail] at hft
          rw [distRow_distance, hft] at hdist
          simp only [Bool.false_eq_true, if_false] at hdist
          rw [hmax] at hdist
          simp only [] at hdist
          have hin : item.netOutput = some n := by rw [← hnet]; exact hrownet
          rw [hin] at hdist
          simp only [] at hdist
          exact hdist

/-- A simulated adapter quote with `amountOut` 3 and zero quoted gas. -/
def quoteOut3 : RawQuote :=
  { aggregator := "A"
    amountOut := some (some 3)
    gasUsed := some 0
    sources := some []
    rawResponse := none
    calldataResponse := none
    simulationResult := some simOk
    failed := none }

/-- A simulated adapter quote with `amountOut` 1 and zero quoted gas. -/
def quoteOut1 : RawQuote :=
  { aggregator := "B"
    amountOut := some (some 1)
    gasUsed := some 0
    sources := some []
    rawResponse := none
    calldataResponse := none
    simulationResult := some simOk
    failed := none }

/-- The row the engine produces for `quoteOut3` with input amount 1 and
gas price 0. -/
def rowOut3 : QuoteRow :=
  { aggregator := "A"
    amountOut := some (some 3)
    gasUsed := some 0
    sources := some []
    rawResponse := none
    calldataResponse := none
    simulationResult := some simOk
    failed := false
    netOutput := some 3
    distance := 0
    score := ((0 : ℚ) : WithTop ℚ) }

/-- The row the engine produces for `quoteOut1` with input amount 1 and
gas price 0. -/
def rowOut1 : QuoteRow :=
  { aggregator := "B"
    amountOut := some (some 1)
    gasUsed := some 0
    sources := some []
    rawResponse := none
    calldataResponse := none
    simulationResult := some simOk
    failed := false
    netOutput := some 1
    distance := 6666666667/100000000
    score := ((0 : ℚ) : WithTop ℚ) }

/-- The scored set for the two quotes above, evaluated. -/
theorem calculateScores_two_rows :
    calculateScores [quoteOut3, quoteOut1] (some 1) (some 0) = [rowOut3, rowOut1] := by
  norm_num [calculateScores, quoteOut3, quoteOut1, rowOut3, rowOut1, simOk, simUsable,
    scoreStage, simScoreable, simOutVal, simGasVal, listMax, listMin, netRow, distRow,
    scoreRow, euclidScore, jsMaxList, jsMax, bnMax, bnMin, bnMul, bnSub, bnDiv, bnTruthy,
    List.filter, ratSqrt20_zero, ratSqrt20_two, bnRound_zero, min_def, max_def, bnRound]

/-- Witness for C4: in the two-row scored set the maximum net output is 3;
the maximal row has distance 0 and the other row's distance is the rounded
formula value. -/
theorem C4_distance_properties_witness :
    rowOut1 ∈ calculateScores [quoteOut3, quoteOut1] (some 1) (some 0) ∧
    rowOut3 ∈ calculateScores [quoteOut3, quoteOut1] (some 1) (some 0) ∧
    rowOut3.distance = 0 ∧
    rowOut1.distance = (if (0:ℚ) < 3 then bnRound 8 ((3 - 1) / 3 * 100) else 0) ∧
    0 ≤ rowOut1.distance := by
  have hmem1 : rowOut1 ∈ calculateScores [quoteOut3, quoteOut1] (some 1) (some 0) := by
    rw [calculateScores_two_rows]; simp
  have hmem3 : rowOut3 ∈ calculateScores [quoteOut3, quoteOut1] (some 1) (some 0) := by
    rw [calculateScores_two_rows]; simp
  have hmax : jsMaxList ((calculateScores [quoteOut3, quoteOut1] (some 1) (some 0)).map
      QuoteRow.netOutput) = some 3 := by
    rw [calculateScores_two_rows]
    norm_num [jsMaxList, jsMax, bnMax, rowOut3, rowOut1, max_def]
  have h := C4_distance_properties [quoteOut3, quoteOut1] (some 1) (some 0)
  refine ⟨hmem1, hmem3, ?_, ?_, ?_⟩
  · exact h.2.2.1 rowOut3 hmem3 3 hmax rfl
  · exact h.2.2.2 rowOut1 hmem1 3 1 hmax rfl rfl
  · exact h.1 rowOut1 hmem1

/-- Counterexample for C4 as stated: with net outputs 3 and 1 the recorded
distance of the second row is `66.66666667` (8 decimal places, half-up),
which differs from the exact claimed value `((3 − 1) / 3) × 100 = 200/3`. -/
theorem C4_counterexample :
    (calculateScores [quoteOut3, quoteOut1] (some 1) (some 0)).map QuoteRow.distance =
      [0, 6666666667/100000000] ∧
    (calculateScores [quoteOut3, quoteOut1] (some 1) (some 0)).map QuoteRow.failed =
      [false, false] ∧
    (calculateScores [quoteOut3, quoteOut1] (some 1) (some 0)).map QuoteRow.netOutput =
      [some 3, some 1] ∧
    ((6666666667 : ℚ)/100000000) ≠ (3 - 1) / 3 * 100 := by
  rw [calculateScores_two_rows]
  refine ⟨?_, ?_, ?_, ?_⟩
  · norm_num [rowOut3, rowOut1]
  · norm_num [rowOut3, rowOut1]
  · norm_num [rowOut3, rowOut1]
  · norm_num

/-! ## Claim C5: the net-output computation -/

/-- Pointwise net-output correspondence on the normal path. -/
theorem calculateScores_netOutput_normal {raw : List RawQuote} {a g : BNum}
    (hus : ¬ ((raw.filter simUsable).length = 0)) (i : ℕ) (item : RawQuote)
    (hitem : raw[i]? = some item) :
    ∃ row, (calculateScores raw a g)[i]? = some row ∧
      row.netOutput = (netRow a g item).netOutput := by
  match raw with
  | [] => simp at hitem
  | x :: xs =>
      rw [calculateScores_cons, if_neg hus]
      obtain ⟨f, hf, hpt⟩ := scoreStage_getElem?
        (((x :: xs).map (netRow a g)).map
          (distRow (jsMaxList (((x :: xs).map (netRow a g)).map QuoteRow.netOutput)))) i
      refine ⟨f (distRow (jsMaxList (((x :: xs).map (netRow a g)).map QuoteRow.netOutput))
        (netRow a g item)), ?_, ?_⟩
      · rw [hpt, List.getElem?_map, List.getElem?_map, hitem]
        rfl
      · rw [(hf _).2.1, distRow_netOutput]

/-- The net output assigned by `netRow` to a parsed, non-failed quote. -/
theorem netRow_netOutput_value (am gp ao gu : ℚ) (ham : am ≠ 0) (item : RawQuote)
    (hao : item.amountOut = some (some ao)) (hgu : item.gasUsed = some gu) :
    (netRow (some am) (some gp) item).netOutput =
      some (bnRound 18 (ao - bnRound 20 (gu * gp * ao / am))) := by
  rw [netRow.eq_def, hao, hgu]
  simp only [bnTruthy, bnMul, bnSub, bnDiv, ham, decide_not, if_neg]
  simp [ham]

/-- The net output assigned by `netRow` to a row with null `amountOut`. -/
theorem netRow_netOutput_null (a : BNum) (gp : ℚ) (item : RawQuote)
    (hao : item.amountOut = none) :
    (netRow a (some gp) item).netOutput = some 0 := by
  rw [netRow.eq_def, hao]
  match item.gasUsed with
  | none =>
      simp only [bnMul, bnSub, bnDiv, bnTruthy]
      match a with
      | none => simp [bnRound_zero]
      | some am =>
          by_cases ham : am = 0
          · simp [ham, bnRound_zero]
          · simp only [ham, decide_not]
            norm_num [bnRound_zero, ham]
  | some gu =>
      simp only [bnMul, bnSub, bnDiv, bnTruthy]
      match a with
      | none => simp [bnRound_zero]
      | some am =>
          by_cases ham : am = 0
          · simp [ham, bnRound_zero]
          · simp only [ham, decide_not]
            norm_num [bnRound_zero, ham]

/-- A row whose simulated output amount fails to parse gets score
`+Infinity` even when the simulation is marked successful (the
`isFinite` guard of lines 761-766). -/
theorem scoreRow_score_top_nan (oMax oMin gMax gMin : ℚ) (item : QuoteRow)
    (s : SimulationResult) (hs : item.simulationResult = some s)
    (hnan : s.outputTokenAmount = none) :
    (scoreRow oMax oMin gMax gMin item).score = ⊤ := by
  rw [scoreRow.eq_def, hs]
  simp only [hnan]
  split <;> rfl

/-- C5 (amended): with a parsed gas-price ratio, a non-null parsed
`amountOut`/`gasUsed` and a nonzero input amount, the delivered net output
is `amountOut − (gasUsed × gasPriceRatio × amountOut / inputAmount)`, the
inner division rounded to 20 decimal places and the result rounded to 18
decimal places (`toFixed(18)`); rows with null `amountOut` (failed rows)
get net output 0; a NaN maximum degrades every distance to 0; and a
successful simulation whose output amount does not parse degrades the
score to `+Infinity`.  (Unlike distance and score, the net output has no
non-finite guard: see the counterexample for the NaN leak.) -/
theorem C5_netOutput (raw : List RawQuote) (a g : BNum) :
    (∀ (i : ℕ) (item : RawQuote) (row : QuoteRow) (am gp ao gu : ℚ),
        raw[i]? = some item → (calculateScores raw a g)[i]? = some row →
        (∃ r ∈ raw, simUsable r = true) →
        a = some am → am ≠ 0 → g = some gp →
        item.amountOut = some (some ao) → item.gasUsed = some gu →
        row.netOutput = some (bnRound 18 (ao - bnRound 20 (gu * gp * ao / am)))) ∧
    (∀ (i : ℕ) (item : RawQuote) (row : QuoteRow) (gp : ℚ),
        raw[i]? = some item → (calculateScores raw a g)[i]? = some row →
        g = some gp → item.amountOut = none →
        row.netOutput = some 0) ∧
    (∀ row ∈ calculateScores raw a g,
        jsMaxList ((calculateScores raw a g).map QuoteRow.netOutput) = none →
        row.distance = 0) ∧
    (∀ row ∈ calculateScores raw a g, ∀ s,
        row.simulationResult = some s → s.outputTokenAmount = none →
        (∃ r ∈ raw, simUsable r = true) →
        row.score = ⊤) := by
  refine ⟨?_, ?_, ?_, ?_⟩
  · intro i item row am gp ao gu hitem hrow hus ha ham hg hao hgu
    have hfil : ¬ ((raw.filter simUsable).length = 0) := by
      obtain ⟨r, hr, hu⟩ := hus
      intro h0
      have h1 : raw.filter simUsable = [] := List.length_eq_zero.mp h0
      have := List.filter_eq_nil_iff.mp h1 r hr
      simp [hu] at this
    obtain ⟨row', hrow', hnet'⟩ :=
      calculateScores_netOutput_normal (a := a) (g := g) hfil i item hitem
    rw [hrow] at hrow'
    cases hrow'
    rw [hnet', ha, hg, netRow_netOutput_value am gp ao gu ham item hao hgu]
  · intro i item row gp hitem hrow hg hao
    by_cases hfil : ((raw.filter simUsable).length = 0)
    · match raw with
      | [] => simp at hitem
      | x :: xs =>
          rw [calculateScores_cons, if_pos hfil, List.getElem?_map, hitem] at hrow
          cases hrow
          rfl
    · obtain ⟨row', hrow', hnet'⟩ :=
        calculateScores_netOutput_normal (a := a) (g := g) hfil i item hitem
      rw [hrow] at hrow'
      cases hrow'
      rw [hnet', hg, netRow_netOutput_null a gp item hao]
  · intro row hrow hmax
    match raw with
    | [] => simp [calculateScores] at hrow
    | x :: xs =>
        by_cases hfil : (((x :: xs).filter simUsable).length = 0)
        · rw [calculateScores_cons, if_pos hfil] at hrow
          obtain ⟨q, _, rfl⟩ := List.mem_map.mp hrow
          rfl
        · rw [calculateScores_netOutputs_normal hfil] at hmax
          obtain ⟨item, hm, hnet, hfail, hdist⟩ := calculateScores_row_normal hfil hrow
          rw [distRow_distance] at hdist
          cases hfb : item.failed with
          | true => simp only [hfb, if_true] at hdist; exact hdist
          | false =>
              simp only [hfb, Bool.false_eq_true, if_false] at hdist
              rw [hmax] at hdist
              simp only [] at hdist
              exact hdist
  · intro row hrow s hs hnan hus
    have hfil : ¬ ((raw.filter simUsable).length = 0) := by
      obtain ⟨r, hr, hu⟩ := hus
      intro h0
      have h1 : raw.filter simUsable = [] := List.length_eq_zero.mp h0
      have := List.filter_eq_nil_iff.mp h1 r hr
      simp [hu] at this
    match raw with
    | [] => simp [calculateScores] at hrow
    | x :: xs =>
        rw [calculateScores_cons, if_neg hfil] at hrow
        rw [scoreStage] at hrow
        split at hrow
        · obtain ⟨item, _, rfl⟩ := List.mem_map.mp hrow
          rfl
        · obtain ⟨item, _, rfl⟩ := List.mem_map.mp hrow
          apply scoreRow_score_top_nan _ _ _ _ item s _ hnan
          rw [← scoreRow_sim (listMax ((List.filter simScoreable _).map simOutVal))]
          exact hs

/-- Witness for C5: one simulated quote (`amountOut` 5, `gasUsed` 1) with
input amount 1 and gas-price ratio 2 delivers net output
`round18(5 − round20(1 × 2 × 5 / 1)) = −5`. -/
theorem C5_netOutput_witness :
    ((calculateScores [quoteOk] (some 1) (some 2))[0]?).map QuoteRow.netOutput =
      some (some (bnRound 18 (5 - bnRound 20 (1 * 2 * 5 / 1)))) := by
  match hrow : (calculateScores [quoteOk] (some 1) (some 2))[0]? with
  | none =>
      exfalso
      have hlen := calculateScores_length [quoteOk] (some 1) (some 2)
      have := List.getElem?_eq_none_iff.mp hrow
      rw [hlen] at this
      simp at this
  | some row =>
      have h := (C5_netOutput [quoteOk] (some 1) (some 2)).1 0 quoteOk row 1 2 5 1
        rfl hrow ⟨quoteOk, by simp, by simp only [simUsable, quoteOk, simOk]; norm_num⟩
        rfl (by norm_num) rfl rfl rfl
      simp only [Option.map_some']
      rw [h]

/-- Counterexample for C5 as stated: with a NaN gas-price ratio (a
non-numeric reference string, `BigNumber(gasPriceRaw)` NaN) the delivered
net output of a successful row is NaN — there is no non-finite guard on
`netOutput` in this revision, so NaN is not degraded to 0. -/
theorem C5_counterexample :
    (calculateScores [quoteOk] (some 1) none).map QuoteRow.netOutput = [none] := by
  norm_num [calculateScores, quoteOk, simOk, simUsable, scoreStage,
    simScoreable, simOutVal, simGasVal, listMax, listMin, netRow, distRow, scoreRow, euclidScore,
    jsMaxList, jsMax, bnMax, bnMin, bnMul, bnSub, bnDiv, bnTruthy,
    List.filter, ratSqrt20_zero, ratSqrt20_two, bnRound_zero, min_def, max_def, bnRound]

/-! ## Claim C1: the simulation-based score -/

/-- The min/max statistics over the successfully simulated rows of a
scored set (lines 732-743): max/min simulated output amount and max/min
total simulated gas. -/
def simStats (rows : List QuoteRow) : ℚ × ℚ × ℚ × ℚ :=
  let sims := rows.filter simScoreable
  (listMax (sims.map simOutVal), listMin (sims.map simOutVal),
   listMax (sims.map simGasVal), listMin (sims.map simGasVal))

/-- `simStats` only reads simulation fields, so a map that preserves
`simulationResult` preserves it. -/
theorem simStats_map {rows : List QuoteRow} {f : QuoteRow → QuoteRow}
    (hf : ∀ x, (f x).simulationResult = x.simulationResult) :
    simStats (rows.map f) = simStats rows := by
  have hsc : ∀ x : QuoteRow, simScoreable (f x) = simScoreable x := by
    intro x
    rw [simScoreable.eq_def, simScoreable.eq_def, hf]
  have hov : ∀ x : QuoteRow, simOutVal (f x) = simOutVal x := by
    intro x
    rw [simOutVal.eq_def, simOutVal.eq_def, hf]
  have hgv : ∀ x : QuoteRow, simGasVal (f x) = simGasVal x := by
    intro x
    rw [simGasVal.eq_def, simGasVal.eq_def, hf]
  have hfilter : (rows.map f).filter simScoreable = (rows.filter simScoreable).map f := by
    rw [List.filter_map]
    congr 1
    apply List.filter_congr
    intro x _
    rw [Function.comp_apply, hsc]
  rw [simStats, simStats, hfilter, List.map_map, List.map_map]
  have h1 : ((rows.filter simScoreable).map (simOutVal ∘ f)) =
      ((rows.filter simScoreable).map simOutVal) :=
    List.map_congr_left fun x _ => hov x
  have h2 : ((rows.filter simScoreable).map (simGasVal ∘ f)) =
      ((rows.filter simScoreable).map simGasVal) :=
    List.map_congr_left fun x _ => hgv x
  rw [h1, h2]

/-- The scoring stage does not change the statistics of its input rows. -/
theorem simStats_scoreStage (rows : List QuoteRow) :
    simStats (scoreStage rows) = simStats rows := by
  rw [scoreStage]
  split
  · exact simStats_map fun x => rfl
  · exact simStats_map fun x => scoreRow_sim _ _ _ _ x

/-- The clamp makes every computed score land in `[0, 1]`. -/
theorem euclidScore_mem_unit (oMax oMin gMax gMin ov gv : ℚ) :
    0 ≤ euclidScore oMax oMin gMax gMin ov gv ∧
      euclidScore oMax oMin gMax gMin ov gv ≤ 1 := by
  rw [euclidScore]
  constructor
  · apply bnRound_nonneg
    exact le_max_left 0 _
  · apply bnRound_le_one
    apply max_le
    · norm_num
    · exact min_le_left 1 _

/-- The score `scoreRow` assigns to a successfully simulated, parseable
row. -/
theorem scoreRow_score_value (oMax oMin gMax gMin : ℚ) (item : QuoteRow)
    (s : SimulationResult) (ov : ℚ)
    (hs : item.simulationResult = some s) (hsucc : s.isSuccessful = true)
    (hov : s.outputTokenAmount = some ov) :
    (scoreRow oMax oMin gMax gMin item).score =
      ((euclidScore oMax oMin gMax gMin ov
        (s.approveTxGasUsed + s.swapTxGasUsed) : ℚ) : WithTop ℚ) := by
  rw [scoreRow.eq_def, hs]
  simp only [hsucc, if_true, hov]

/-- C1 (amended): provided at least one row carries usable simulation
data (simulation present with nonzero total gas — the gate of line 658,
without which every score is `+Infinity`), every row with a successful,
parseable simulation receives the score `euclidScore`: the Euclidean
distance from `(outputNorm, gasNorm)` to the ideal corner `(1, 0)`
divided by `√2`, clamped to `[0, 1]` and rounded to 6 decimal places,
where the normalisations are taken against the min/max statistics of the
successfully simulated rows (output treated as 1 and gas as 0 when the
respective max and min tie); the resulting score always lies in
`[0, 1]`. -/
theorem C1_simulation_score (raw : List RawQuote) (a g : BNum) :
    ∀ row ∈ calculateScores raw a g, ∀ (s : SimulationResult) (ov : ℚ),
      (∃ r ∈ raw, simUsable r = true) →
      row.simulationResult = some s → s.isSuccessful = true →
      s.outputTokenAmount = some ov →
      row.score = ((euclidScore (simStats (calculateScores raw a g)).1
          (simStats (calculateScores raw a g)).2.1
          (simStats (calculateScores raw a g)).2.2.1
          (simStats (calculateScores raw a g)).2.2.2
          ov (s.approveTxGasUsed + s.swapTxGasUsed) : ℚ) : WithTop ℚ) ∧
        (∃ q : ℚ, row.score = (q : WithTop ℚ) ∧ 0 ≤ q ∧ q ≤ 1) := by
  intro row hrow s ov hus hs hsucc hov
  have hfil : ¬ ((raw.filter simUsable).length = 0) := by
    obtain ⟨r, hr, hu⟩ := hus
    intro h0
    have h1 : raw.filter simUsable = [] := List.length_eq_zero.mp h0
    have := List.filter_eq_nil_iff.mp h1 r hr
    simp [hu] at this
  match raw with
  | [] => simp [calculateScores] at hrow
  | x :: xs =>
      rw [calculateScores_cons, if_neg hfil] at hrow ⊢
      have hstats := simStats_scoreStage
        (((x :: xs).map (netRow a g)).map
          (distRow (jsMaxList (((x :: xs).map (netRow a g)).map QuoteRow.netOutput))))
      rw [scoreStage] at hrow
      split at hrow
      · rename_i hempty
        obtain ⟨item, hm, rfl⟩ := List.mem_map.mp hrow
        exfalso
        have hitem : simScoreable item = true := by
          rw [simScoreable.eq_def]
          have : item.simulationResult = some s := hs
          rw [this]
          simp [hsucc, hov]
        have hmemf : item ∈ List.filter simScoreable
            (((x :: xs).map (netRow a g)).map
              (distRow (jsMaxList (((x :: xs).map (netRow a g)).map QuoteRow.netOutput)))) :=
          List.mem_filter.mpr ⟨hm, hitem⟩
        rw [List.length_eq_zero.mp hempty] at hmemf
        simp at hmemf
      · rename_i hnonempty
        obtain ⟨item, hm, rfl⟩ := List.mem_map.mp hrow
        have hsim : item.simulationResult = some s := by
          rw [← scoreRow_sim (listMax ((List.filter simScoreable _).map simOutVal))]
          exact hs
        rw [hstats]
        constructor
        · rw [scoreRow_score_value _ _ _ _ item s ov hsim hsucc hov]
          rfl
        · exact ⟨_, scoreRow_score_value _ _ _ _ item s ov hsim hsucc hov,
            (euclidScore_mem_unit _ _ _ _ _ _).1, (euclidScore_mem_unit _ _ _ _ _ _).2⟩

/-- Witness for C1: in the two-quote scored set both rows are successfully
simulated with tying statistics, so the formula applies and yields a score
in `[0, 1]`. -/
theorem C1_simulation_score_witness :
    rowOut3 ∈ calculateScores [quoteOut3, quoteOut1] (some 1) (some 0) ∧
    rowOut3.score =
      ((euclidScore (simStats (calculateScores [quoteOut3, quoteOut1] (some 1) (some 0))).1
        (simStats (calculateScores [quoteOut3, quoteOut1] (some 1) (some 0))).2.1
        (simStats (calculateScores [quoteOut3, quoteOut1] (some 1) (some 0))).2.2.1
        (simStats (calculateScores [quoteOut3, quoteOut1] (some 1) (some 0))).2.2.2
        5 (simOk.approveTxGasUsed + simOk.swapTxGasUsed) : ℚ) : WithTop ℚ) ∧
    (∃ q : ℚ, rowOut3.score = (q : WithTop ℚ) ∧ 0 ≤ q ∧ q ≤ 1) := by
  have hmem : rowOut3 ∈ calculateScores [quoteOut3, quoteOut1] (some 1) (some 0) := by
    rw [calculateScores_two_rows]
    simp
  have h := C1_simulation_score [quoteOut3, quoteOut1] (some 1) (some 0) rowOut3 hmem
    simOk 5 ⟨quoteOut3, by simp, by simp only [simUsable, quoteOut3, simOk]; norm_num⟩
    rfl rfl rfl
  exact ⟨hmem, h.1, h.2⟩

/-- A simulation marked successful whose total gas is zero. -/
def simZeroGas : SimulationResult :=
  { balanceOfBefore := "0"
    balanceOfAfter := "5"
    outputTokenAmount := some 5
    outputToken := "0xout"
    approveTxGasUsed := 0
    swapTxGasUsed := 0
    isSuccessful := true
    simBlockNumber := "1"
    simTime := "0"
    simTimeTotal := "0"
    requestId := "r" }

/-- A quote whose simulation succeeded with zero total gas. -/
def quoteZeroGas : RawQuote :=
  { aggregator := "Z"
    amountOut := some (some 5)
    gasUsed := some 1
    sources := some []
    rawResponse := none
    calldataResponse := none
    simulationResult := some simZeroGas
    failed := none }

/-- Counterexample for C1 as stated: a set whose only row has a
*successful* simulation (output 5, zero total gas) gets score
`+Infinity`, because the gate of line 658 requires nonzero total gas
before any simulation-based scoring happens; the claimed formula would
give `0` for a sole successfully simulated row (norms tie to `(1, 0)`,
distance 0). -/
theorem C1_counterexample :
    (calculateScores [quoteZeroGas] (some 1) (some 0)).map QuoteRow.score = [⊤] ∧
    euclidScore 5 5 0 0 5 0 = 0 ∧
    (⊤ : WithTop ℚ) ≠ (((0 : ℚ)) : WithTop ℚ) := by
  refine ⟨?_, ?_, ?_⟩
  · norm_num [calculateScores, quoteZeroGas, simZeroGas, simUsable, List.filter,
      allFailedRow]
  · norm_num [euclidScore, ratSqrt20_zero, bnRound_zero, min_def, max_def]
  · simp

/-! ## Claim C9: the ranker -/

/-- The head of an insertion sort is related to every list element, for a
total transitive comparator. -/
theorem insertionSort_head_rel {α : Type} (r : α → α → Prop) [DecidableRel r]
    (htot : ∀ a b, r a b ∨ r b a) (htrans : ∀ a b c, r a b → r b c → r a c)
    (l : List α) (h : α) (hh : (l.insertionSort r).head? = some h) :
    h ∈ l ∧ ∀ y ∈ l, r h y := by
  letI : IsTotal α r := ⟨htot⟩
  letI : IsTrans α r := ⟨fun a b c => htrans a b c⟩
  have hsorted := List.sorted_insertionSort r l
  have hperm := List.perm_insertionSort r l
  match hsl : l.insertionSort r with
  | [] => rw [hsl] at hh; simp at hh
  | a :: t =>
      rw [hsl] at hh
      have ha : a = h := by simpa using hh
      rw [hsl] at hsorted hperm
      rw [ha] at hsorted hperm
      constructor
      · exact hperm.subset (List.mem_cons_self h t)
      · intro y hy
        have hy' : y ∈ h :: t := hperm.symm.subset hy
        rcases List.mem_cons.mp hy' with rfl | hyt
        · rcases htot y y with hr | hr <;> exact hr
        · exact List.rel_of_sorted_cons hsorted y hyt

/-- C9 (amended): ranking by `score` sorts ascending by score and places
a minimum-score row first; ranking by `net` sorts descending by net
output and places a maximum-netOutput row first; ranking by `output`
sorts descending by the JavaScript numeric value of `amountOut`, where a
null `amountOut` is coerced to 0 (`Number(null)`), *not* to the lowest
possible value, and a non-numeric `amountOut` (NaN key, unspecified
comparator behaviour) is modelled as sorting last.  All three orderings
permute the scored set. -/
theorem C9_ranking (l : List QuoteRow) :
    (rankByScore l).Perm l ∧ (rankByNet l).Perm l ∧ (rankByOutput l).Perm l ∧
    List.Sorted (fun a b : QuoteRow => a.score ≤ b.score) (rankByScore l) ∧
    List.Sorted (fun a b : QuoteRow => netKey b ≤ netKey a) (rankByNet l) ∧
    List.Sorted (fun a b : QuoteRow => outKey b ≤ outKey a) (rankByOutput l) ∧
    (∀ h : QuoteRow, (rankByScore l).head? = some h →
        h ∈ l ∧ ∀ y ∈ l, h.score ≤ y.score) ∧
    (∀ h : QuoteRow, (rankByNet l).head? = some h →
        h ∈ l ∧ ∀ y ∈ l, netKey y ≤ netKey h) ∧
    (∀ h : QuoteRow, (rankByOutput l).head? = some h →
        h ∈ l ∧ ∀ y ∈ l, outKey y ≤ outKey h) := by
  have tot1 : ∀ a b : QuoteRow, a.score ≤ b.score ∨ b.score ≤ a.score :=
    fun a b => le_total a.score b.score
  have trans1 : ∀ a b c : QuoteRow, a.score ≤ b.score → b.score ≤ c.score →
      a.score ≤ c.score := fun a b c hab hbc => le_trans hab hbc
  have tot2 : ∀ a b : QuoteRow, netKey b ≤ netKey a ∨ netKey a ≤ netKey b :=
    fun a b => le_total (netKey b) (netKey a)
  have trans2 : ∀ a b c : QuoteRow, netKey b ≤ netKey a → netKey c ≤ netKey b →
      netKey c ≤ netKey a := fun a b c hab hbc => le_trans hbc hab
  have tot3 : ∀ a b : QuoteRow, outKey b ≤ outKey a ∨ outKey a ≤ outKey b :=
    fun a b => le_total (outKey b) (outKey a)
  have trans3 : ∀ a b c : QuoteRow, outKey b ≤ outKey a → outKey c ≤ outKey b →
      outKey c ≤ outKey a := fun a b c hab hbc => le_trans hbc hab
  refine ⟨List.perm_insertionSort _ l, List.perm_insertionSort _ l,
    List.perm_insertionSort _ l, ?_, ?_, ?_, ?_, ?_, ?_⟩
  · letI : IsTotal QuoteRow (fun a b : QuoteRow => a.score ≤ b.score) := ⟨tot1⟩
    letI : IsTrans QuoteRow (fun a b : QuoteRow => a.score ≤ b.score) :=
      ⟨fun a b c => trans1 a b c⟩
    exact List.sorted_insertionSort _ l
  · letI : IsTotal QuoteRow (fun a b : QuoteRow => netKey b ≤ netKey a) := ⟨tot2⟩
    letI : IsTrans QuoteRow (fun a b : QuoteRow => netKey b ≤ netKey a) :=
      ⟨fun a b c => trans2 a b c⟩
    exact List.sorted_insertionSort _ l
  · letI : IsTotal QuoteRow (fun a b : QuoteRow => outKey b ≤ outKey a) := ⟨tot3⟩
    letI : IsTrans QuoteRow (fun a b : QuoteRow => outKey b ≤ outKey a) :=
      ⟨fun a b c => trans3 a b c⟩
    exact List.sorted_insertionSort _ l
  · exact fun h hh => insertionSort_head_rel _ tot1 trans1 l h hh
  · exact fun h hh => insertionSort_head_rel _ tot2 trans2 l h hh
  · exact fun h hh => insertionSort_head_rel _ tot3 trans3 l h hh

/-- Witness for C9: ranking the two scored rows by `net` puts the
netOutput-3 row first. -/
theorem C9_ranking_witness :
    (rankByNet [rowOut1, rowOut3]).head? = some rowOut3 ∧
    rowOut3 ∈ [rowOut1, rowOut3] ∧
    (∀ y ∈ [rowOut1, rowOut3], netKey y ≤ netKey rowOut3) := by
  have heval : rankByNet [rowOut1, rowOut3] = [rowOut3, rowOut1] := by
    norm_num [rankByNet, netKey, rowOut1, rowOut3, List.insertionSort, List.orderedInsert]
  have hh : (rankByNet [rowOut1, rowOut3]).head? = some rowOut3 := by
    rw [heval]
    rfl
  have h := (C9_ranking [rowOut1, rowOut3]).2.2.2.2.2.2.2.1 rowOut3 hh
  exact ⟨hh, h.1, h.2⟩

/-- A scored row with a negative numeric `amountOut`. -/
def rowNeg : QuoteRow :=
  { aggregator := "N"
    amountOut := some (some (-5))
    gasUsed := some 0
    sources := some []
    rawResponse := none
    calldataResponse := none
    simulationResult := none
    failed := false
    netOutput := some 0
    distance := 0
    score := ((0 : ℚ) : WithTop ℚ) }

/-- A scored row with a null `amountOut`. -/
def rowNull : QuoteRow :=
  { aggregator := "Z"
    amountOut := none
    gasUsed := none
    sources := none
    rawResponse := none
    calldataResponse := none
    simulationResult := none
    failed := true
    netOutput := some 0
    distance := 0
    score := ⊤ }

/-- Counterexample for C9 as stated: under `output` ordering a null
`amountOut` is coerced to the number 0 (`Number(null) = 0`), so the null
row sorts *above* a row with a negative numeric `amountOut` instead of
being treated as the lowest possible value. -/
theorem C9_counterexample :
    (rankByOutput [rowNeg, rowNull]).map QuoteRow.amountOut =
      [none, some (some (-5))] ∧
    outKey rowNull = ((0 : ℚ) : WithBot ℚ) ∧
    ¬ (outKey rowNull ≤ outKey rowNeg) := by
  refine ⟨?_, rfl, ?_⟩
  · norm_num [rankByOutput, outKey, rowNeg, rowNull, List.insertionSort,
      List.orderedInsert]
  · norm_num [outKey, rowNeg, rowNull]

/-! ## Claim C7: the entry point's error paths -/

/-- The failure that `getQuoteComparison` reports for given collaborator
outcomes, in the order the source encounters them: the timer, the token
catalog read, symbol resolution, the reference gas-price call; `none`
when the pipeline reaches the success path. -/
def expectedError (env : PipelineEnv) (data : QuoteComparisonInput) : Option String :=
  if env.timedOut then some timeoutMessage
  else
    match env.tokenListOutcome with
    | Except.error e => some e
    | Except.ok tokenList =>
        match findTokenBySymbol tokenList (data.tokenIn.getD "WETH") <|>
                fallbackTokenBySymbol (data.tokenIn.getD "WETH"),
              findTokenBySymbol tokenList (data.tokenOut.getD "WBTC") <|>
                fallbackTokenBySymbol (data.tokenOut.getD "WBTC") with
        | some _, some _ =>
            match env.gasPriceOutcome with
            | Except.error e => some e
            | Except.ok _ => none
        | _, _ => some "Unsupported token symbol"

/-- C7 (amended): `getQuoteComparison` is a total function of its
collaborators' outcomes — every input produces a well-formed response,
never an unhandled rejection.  The response has `status = "error"`
exactly when the timer fired first, the token-catalog read failed, a
symbol resolved in neither the catalog nor the fallback table, or the
reference gas-price call failed (the catalog read is a fourth escaping
failure kind beyond the claim's three); the reported message is the
triggering error's own (the fixed message for a timeout), and every error
response carries `tokenOutDecimals = 0`, `gasPriceTokenIn = "0"` and
`results = []`. -/
theorem C7_error_paths (env : PipelineEnv) (data : QuoteComparisonInput) :
    ((getQuoteComparison env data).status = Status.error ↔
      (expectedError env data).isSome) ∧
    (getQuoteComparison env data).error = expectedError env data ∧
    ((getQuoteComparison env data).status = Status.error →
        (getQuoteComparison env data).tokenOutDecimals = 0 ∧
        (getQuoteComparison env data).gasPriceTokenIn = some 0 ∧
        (getQuoteComparison env data).results = []) ∧
    (env.timedOut = true →
        (getQuoteComparison env data).error = some timeoutMessage) ∧
    ((getQuoteComparison env data).status = Status.success ∨
        (getQuoteComparison env data).status = Status.error) := by
  rw [getQuoteComparison.eq_def, expectedError.eq_def]
  by_cases ht : env.timedOut = true
  · simp only [ht, if_true]
    refine ⟨by simp [errorResponse], by simp [errorResponse], ?_, ?_, ?_⟩
    · intro _
      exact ⟨rfl, rfl, rfl⟩
    · intro _
      rfl
    · right
      rfl
  · simp only [ht, if_false, Bool.not_eq_true] at *
    simp only [ht, Bool.false_eq_true, if_false]
    match htl : env.tokenListOutcome with
    | Except.error e =>
        refine ⟨by simp [errorResponse], by simp [errorResponse], ?_, ?_, ?_⟩
        · intro _
          exact ⟨rfl, rfl, rfl⟩
        · intro hcontra
          exact absurd hcontra (by simp [ht])
        · right
          rfl
    | Except.ok tokenList =>
        match h1 : findTokenBySymbol tokenList (data.tokenIn.getD "WETH") <|>
            fallbackTokenBySymbol (data.tokenIn.getD "WETH"),
          h2 : findTokenBySymbol tokenList (data.tokenOut.getD "WBTC") <|>
            fallbackTokenBySymbol (data.tokenOut.getD "WBTC") with
        | some tIn, some tOut =>
            simp only [h1, h2]
            match hg : env.gasPriceOutcome with
            | Except.error e =>
                refine ⟨by simp [errorResponse], by simp [errorResponse], ?_, ?_, ?_⟩
                · intro _
                  exact ⟨rfl, rfl, rfl⟩
                · intro hcontra
                  exact absurd hcontra (by simp [ht])
                · right
                  rfl
            | Except.ok gasRaw =>
                refine ⟨by simp, by simp, ?_, ?_, ?_⟩
                · intro hcontra
                  simp at hcontra
                · intro hcontra
                  exact absurd hcontra (by simp [ht])
                · left
                  rfl
        | some tIn, none =>
            simp only [h1, h2]
            refine ⟨by simp [errorResponse], by simp [errorResponse], ?_, ?_, ?_⟩
            · intro _
              exact ⟨rfl, rfl, rfl⟩
            · intro hcontra
              exact absurd hcontra (by simp [ht])
            · right
              rfl
        | none, some tOut =>
            simp only [h1, h2]
            refine ⟨by simp [errorResponse], by simp [errorResponse], ?_, ?_, ?_⟩
            · intro _
              exact ⟨rfl, rfl, rfl⟩
            · intro hcontra
              exact absurd hcontra (by simp [ht])
            · right
              rfl
        | none, none =>
            simp only [h1, h2]
            refine ⟨by simp [errorResponse], by simp [errorResponse], ?_, ?_, ?_⟩
            · intro _
              exact ⟨rfl, rfl, rfl⟩
            · intro hcontra
              exact absurd hcontra (by simp [ht])
            · right
              rfl

/-- A request with every field absent (all defaults apply). -/
def dataDefault : QuoteComparisonInput :=
  { tokenIn := none
    tokenOut := none
    tokenAmount := none
    order := none }

/-- Collaborator outcomes where only the token-catalog read fails. -/
def envCatalogFail : PipelineEnv :=
  { tokenListOutcome := Except.error "catalog read failed"
    gasPriceOutcome := Except.ok (some 1)
    baseOutcomes := []
    chunkOutcomes := []
    defaultOutcomes := []
    timedOut := false }

/-- Counterexample for C7 as stated: a token-catalog read failure escapes
to the caller as `status: "error"` although no timeout occurred, the
reference gas-price call succeeded, and both (default) symbols resolve in
the fallback table — so the escape is of a fourth kind, beyond
reference-price, token-resolution and timeout failures.  (This revision
reads the catalog with `readFile`/`JSON.parse` and, unlike the earlier
revision, has no catch-and-fall-back around it.) -/
theorem C7_counterexample :
    (getQuoteComparison envCatalogFail dataDefault).status = Status.error ∧
    (getQuoteComparison envCatalogFail dataDefault).error = some "catalog read failed" ∧
    envCatalogFail.timedOut = false ∧
    envCatalogFail.gasPriceOutcome = Except.ok (some 1) ∧
    (fallbackTokenBySymbol "WETH").isSome = true ∧
    (fallbackTokenBySymbol "WBTC").isSome = true := by
  refine ⟨rfl, rfl, rfl, rfl, ?_, ?_⟩
  · with_unfolding_all decide
  · with_unfolding_all decide

/-- Collaborator outcomes where the timer fires first. -/
def envTimeout : PipelineEnv :=
  { tokenListOutcome := Except.ok []
    gasPriceOutcome := Except.ok (some 1)
    baseOutcomes := []
    chunkOutcomes := []
    defaultOutcomes := []
    timedOut := true }

/-- Witness for C7: a timed-out run produces the fixed timeout message
with the empty-results error shape. -/
theorem C7_error_paths_witness :
    (getQuoteComparison envTimeout dataDefault).status = Status.error ∧
    (getQuoteComparison envTimeout dataDefault).error = some timeoutMessage ∧
    (getQuoteComparison envTimeout dataDefault).tokenOutDecimals = 0 ∧
    (getQuoteComparison envTimeout dataDefault).gasPriceTokenIn = some 0 ∧
    (getQuoteComparison envTimeout dataDefault).results = [] := by
  have h := C7_error_paths envTimeout dataDefault
  have hstat : (getQuoteComparison envTimeout dataDefault).status = Status.error :=
    h.1.mpr (by rw [show expectedError envTimeout dataDefault = some timeoutMessage from rfl]; rfl)
  have hshape := h.2.2.1 hstat
  exact ⟨hstat, h.2.2.2.1 rfl, hshape.1, hshape.2.1, hshape.2.2⟩
